import Mathlib

/-! # Pica register file (`video_core/regs.h`)

A shallow embedding of `Pica::Regs`: the flat backing store `reg_array`, the
byte-enable masked `Write`, and the block layout of the anonymous struct that is
overlaid on `reg_array`.

Machine words (`u32`) are natural numbers below `2 ^ 32`.  An array access outside
the bounds of the array has no defined result in the source language; the
embedding makes this explicit by returning `none`.
-/

namespace Pica

/-- A natural number is a `u32` value when it is below `2 ^ 32`. -/
def isU32 (x : Nat) : Prop := x < 2 ^ 32

instance (x : Nat) : Decidable (isU32 x) := by
  unfold isU32; infer_instance

/-- The operator `~` on a `u32` operand: every one of the 32 bits is flipped. -/
def not32 (x : Nat) : Nat := 0xFFFFFFFF ^^^ x

/-- The register file: `std::array<u32, NUM_REGS> reg_array`, kept as the list of
its words. -/
structure Regs where
  reg_array : List Nat
  deriving DecidableEq, Repr

namespace Regs

/-- The constant `static constexpr std::size_t NUM_REGS = 0x300`. -/
def NUM_REGS : Nat := 0x300

/-- The table `expand_bits_to_bytes` local to `Regs::Write`, which expands a
4-bit mask to a 4-byte mask. -/
def expand_bits_to_bytes : List Nat :=
  [0x00000000, 0x000000ff, 0x0000ff00, 0x0000ffff, 0x00ff0000, 0x00ff00ff, 0x00ffff00, 0x00ffffff,
   0xff000000, 0xff0000ff, 0xff00ff00, 0xff00ffff, 0xffff0000, 0xffff00ff, 0xffffff00, 0xffffffff]

/-- The function `void Regs::Write(u32 id, u32 value, u32 mask)`.

The source reads `reg_array[id]` and `expand_bits_to_bytes[mask]` without any
range check; when either index is outside its array the call has no defined
result, which is `none` here.  Otherwise the addressed word is replaced by
`(old_value & ~write_mask) | (value & write_mask)`. -/
def Write (r : Regs) (id value mask : Nat) : Option Regs :=
  match r.reg_array[id]?, expand_bits_to_bytes[mask]? with
  | some old_value, some write_mask =>
      some ⟨r.reg_array.set id ((old_value &&& not32 write_mask) ||| (value &&& write_mask))⟩
  | _, _ => none

/-- The well-formed register states: `NUM_REGS` words, each a `u32`. -/
def WF (r : Regs) : Prop :=
  r.reg_array.length = NUM_REGS ∧ ∀ w ∈ r.reg_array, isU32 w

/-- The register file after reset: every word is zero. -/
def zero : Regs := ⟨List.replicate NUM_REGS 0⟩

/-- A run of calls to `Write`, performed in order; each call is given as
`(id, value, mask)`. -/
def WriteAll (r : Regs) : List (Nat × Nat × Nat) → Option Regs
  | [] => some r
  | (id, value, mask) :: ws =>
      match r.Write id value mask with
      | some r1 => WriteAll r1 ws
      | none => none

end Regs

/-- Byte lane `k` of a word: bits `8 * k` to `8 * k + 7`. -/
def byteLane (w k : Nat) : Nat := (w >>> (8 * k)) &&& 0xFF

/-- The byte-broadcast of a 4-bit mask: the sum over the lanes `k = 0..3` of
(bit `k` of `m`) times `0xFF << 8k`. -/
def byteBroadcast (m : Nat) : Nat :=
  ((List.range 4).map (fun k => (m / 2 ^ k % 2) * (0xFF <<< (8 * k)))).sum

/-! ## Layout of the struct overlaid on `reg_array` -/

/-- The types of the members of the anonymous struct inside `Regs`. -/
inductive MemberType where
  | u32
  | PaddingWords (n : Nat)
  | RasterizerRegs
  | TexturingRegs
  | FramebufferRegs
  | LightingRegs
  | PipelineRegs
  | ShaderRegs
  deriving DecidableEq, Repr

/-- The sizes, in words, of the block types that `regs.h` includes from the other
register headers. -/
structure BlockSizes where
  RasterizerRegs : Nat
  TexturingRegs : Nat
  FramebufferRegs : Nat
  LightingRegs : Nat
  PipelineRegs : Nat
  ShaderRegs : Nat
  deriving DecidableEq, Repr

/-- Modelled from the spec: the word counts of `RasterizerRegs`, `TexturingRegs`,
`FramebufferRegs`, `LightingRegs`, `PipelineRegs` and `ShaderRegs`, whose
declarations (`regs_rasterizer.h`, `regs_texturing.h`, `regs_framebuffer.h`,
`regs_lighting.h`, `regs_pipeline.h`, `regs_shader.h`) are absent.  The register
map gives the blocks as 0x40..0x80, 0x80..0x100, 0x100..0x140, 0x140..0x200,
0x200..0x280, and one shader unit as 0x280..0x2B0. -/
def picaBlockSizes : BlockSizes :=
  { RasterizerRegs := 0x40, TexturingRegs := 0x80, FramebufferRegs := 0x40,
    LightingRegs := 0xC0, PipelineRegs := 0x80, ShaderRegs := 0x30 }

/-- The operator `sizeof`, in bytes, on a member type; `sizeof(u32)` is 4 and
`INSERT_PADDING_WORDS(n)` declares `n` words. -/
def sizeof (s : BlockSizes) : MemberType → Nat
  | .u32 => 4
  | .PaddingWords n => 4 * n
  | .RasterizerRegs => 4 * s.RasterizerRegs
  | .TexturingRegs => 4 * s.TexturingRegs
  | .FramebufferRegs => 4 * s.FramebufferRegs
  | .LightingRegs => 4 * s.LightingRegs
  | .PipelineRegs => 4 * s.PipelineRegs
  | .ShaderRegs => 4 * s.ShaderRegs

/-- The named members of the struct. -/
inductive Field where
  | trigger_irq
  | rasterizer
  | texturing
  | framebuffer
  | lighting
  | pipeline
  | gs
  | vs
  deriving DecidableEq, Repr

/-- The members of the anonymous struct of `Regs` in declaration order; a padding
member has no name. -/
def Regs.members : List (Option Field × MemberType) :=
  [ (none, .PaddingWords 0x10),
    (some .trigger_irq, .u32),
    (none, .PaddingWords 0x2f),
    (some .rasterizer, .RasterizerRegs),
    (some .texturing, .TexturingRegs),
    (some .framebuffer, .FramebufferRegs),
    (some .lighting, .LightingRegs),
    (some .pipeline, .PipelineRegs),
    (some .gs, .ShaderRegs),
    (some .vs, .ShaderRegs),
    (none, .PaddingWords 0x20) ]

/-- Byte offset of the member named `f` in a member list that starts at byte
`base`: the sizes of the members declared before it (all members are made of
`u32` words, so no alignment gap arises). -/
def offsetofFrom (s : BlockSizes) (f : Field) : Nat → List (Option Field × MemberType) → Option Nat
  | _, [] => none
  | base, (n, t) :: ms =>
      if n = some f then some base else offsetofFrom s f (base + sizeof s t) ms

/-- The expression `offsetof(Regs, f)`. -/
def offsetof (s : BlockSizes) (f : Field) : Option Nat :=
  offsetofFrom s f 0 Regs.members

/-- The macro `PICA_REG_INDEX(f)`, which is `offsetof(Pica::Regs, f) / sizeof(u32)`. -/
def PICA_REG_INDEX (s : BlockSizes) (f : Field) : Option Nat :=
  (offsetof s f).map (fun o => o / sizeof s .u32)

/-- The expression `sizeof(Regs)`: the size of the struct, which by the first
`static_assert` is also the size of the union with `reg_array`. -/
def sizeofRegs (s : BlockSizes) : Nat :=
  (Regs.members.map (fun m => sizeof s m.2)).sum

/-- The type of the member named `f`. -/
def typeOf (f : Field) : Option MemberType :=
  (Regs.members.find? (fun m => m.1 = some f)).map (fun m => m.2)

/-- The half-open word range `[first, last)` that the member named `f` occupies. -/
def wordRange (s : BlockSizes) (f : Field) : Option (Nat × Nat) :=
  match PICA_REG_INDEX s f, typeOf f with
  | some o, some t => some (o, o + sizeof s t / sizeof s .u32)
  | _, _ => none

/-- The macro `ASSERT_REG_POSITION(f, position)`:
`offsetof(Regs, f) == position * 4`. -/
def ASSERT_REG_POSITION (s : BlockSizes) (f : Field) (position : Nat) : Prop :=
  offsetof s f = some (position * 4)

instance (s : BlockSizes) (f : Field) (position : Nat) :
    Decidable (ASSERT_REG_POSITION s f position) := by
  unfold ASSERT_REG_POSITION; infer_instance

/-- The `static_assert`s of `regs.h` on the size of `Regs` and on the positions
of its named members. -/
def staticAsserts (s : BlockSizes) : Prop :=
  sizeofRegs s = Regs.NUM_REGS * sizeof s .u32 ∧
  ASSERT_REG_POSITION s .trigger_irq 0x10 ∧
  ASSERT_REG_POSITION s .rasterizer 0x40 ∧
  ASSERT_REG_POSITION s .texturing 0x80 ∧
  ASSERT_REG_POSITION s .framebuffer 0x100 ∧
  ASSERT_REG_POSITION s .lighting 0x140 ∧
  ASSERT_REG_POSITION s .pipeline 0x200 ∧
  ASSERT_REG_POSITION s .gs 0x280 ∧
  ASSERT_REG_POSITION s .vs 0x2b0

instance (s : BlockSizes) : Decidable (staticAsserts s) := by
  unfold staticAsserts; infer_instance

/-! ## The register file and its downstream collaborator -/

/-- The register file together with what lies outside it: the number of
interrupt events that the downstream collaborator has been sent so far. -/
structure World where
  regs : Regs
  interrupts : Nat
  deriving DecidableEq, Repr

/-- The call `regs.Write(id, value, mask)` seen from outside.  The body of
`Regs::Write` consists of the table, two reads and one store into `reg_array`;
it calls no function and touches nothing but `reg_array`, so the count of
interrupt events is passed on as it is. -/
def World.Write (w : World) (id value mask : Nat) : Option World :=
  match w.regs.Write id value mask with
  | some r1 => some ⟨r1, w.interrupts⟩
  | none => none

end Pica

/-! # Camera image conversion (`android/jni/camera/camera_util.cpp`)

Values of type `int` are integers, values of type `u32` and `u16` are natural
numbers; a read or write outside a vector or table has no defined result, which
is `none` here. -/

namespace CameraUtil

namespace YuvTable

/-- The table `Y_R`, 256 entries. -/
def Y_R : List Int :=
  [53, 53, 53, 54, 54, 54, 55, 55, 55, 56, 56, 56, 56, 57, 57, 57,
   58, 58, 58, 59, 59, 59, 59, 60, 60, 60, 61, 61, 61, 62, 62, 62,
   62, 63, 63, 63, 64, 64, 64, 65, 65, 65, 65, 66, 66, 66, 67, 67,
   67, 67, 68, 68, 68, 69, 69, 69, 70, 70, 70, 70, 71, 71, 71, 72,
   72, 72, 73, 73, 73, 73, 74, 74, 74, 75, 75, 75, 76, 76, 76, 76,
   77, 77, 77, 78, 78, 78, 79, 79, 79, 79, 80, 80, 80, 81, 81, 81,
   82, 82, 82, 82, 83, 83, 83, 84, 84, 84, 85, 85, 85, 85, 86, 86,
   86, 87, 87, 87, 87, 88, 88, 88, 89, 89, 89, 90, 90, 90, 90, 91,
   91, 91, 92, 92, 92, 93, 93, 93, 93, 94, 94, 94, 95, 95, 95, 96,
   96, 96, 96, 97, 97, 97, 98, 98, 98, 99, 99, 99, 99, 100, 100, 100,
   101, 101, 101, 102, 102, 102, 102, 103, 103, 103, 104, 104, 104, 105, 105, 105,
   105, 106, 106, 106, 107, 107, 107, 108, 108, 108, 108, 109, 109, 109, 110, 110,
   110, 110, 111, 111, 111, 112, 112, 112, 113, 113, 113, 113, 114, 114, 114, 115,
   115, 115, 116, 116, 116, 116, 117, 117, 117, 118, 118, 118, 119, 119, 119, 119,
   120, 120, 120, 121, 121, 121, 122, 122, 122, 122, 123, 123, 123, 124, 124, 124,
   125, 125, 125, 125, 126, 126, 126, 127, 127, 127, 128, 128, 128, 128, 129, 129]

/-- The table `Y_G`, 256 entries. -/
def Y_G : List Int :=
  [-79, -79, -78, -78, -77, -77, -76, -75, -75, -74, -74, -73, -72, -72, -71, -71,
   -70, -70, -69, -68, -68, -67, -67, -66, -65, -65, -64, -64, -63, -62, -62, -61,
   -61, -60, -60, -59, -58, -58, -57, -57, -56, -55, -55, -54, -54, -53, -52, -52,
   -51, -51, -50, -50, -49, -48, -48, -47, -47, -46, -45, -45, -44, -44, -43, -42,
   -42, -41, -41, -40, -40, -39, -38, -38, -37, -37, -36, -35, -35, -34, -34, -33,
   -33, -32, -31, -31, -30, -30, -29, -28, -28, -27, -27, -26, -25, -25, -24, -24,
   -23, -23, -22, -21, -21, -20, -20, -19, -18, -18, -17, -17, -16, -15, -15, -14,
   -14, -13, -13, -12, -11, -11, -10, -10, -9, -8, -8, -7, -7, -6, -5, -5,
   -4, -4, -3, -3, -2, -1, -1, 0, 0, 0, 1, 1, 2, 2, 3, 4,
   4, 5, 5, 6, 6, 7, 8, 8, 9, 9, 10, 11, 11, 12, 12, 13,
   13, 14, 15, 15, 16, 16, 17, 18, 18, 19, 19, 20, 21, 21, 22, 22,
   23, 23, 24, 25, 25, 26, 26, 27, 28, 28, 29, 29, 30, 31, 31, 32,
   32, 33, 33, 34, 35, 35, 36, 36, 37, 38, 38, 39, 39, 40, 41, 41,
   42, 42, 43, 43, 44, 45, 45, 46, 46, 47, 48, 48, 49, 49, 50, 50,
   51, 52, 52, 53, 53, 54, 55, 55, 56, 56, 57, 58, 58, 59, 59, 60,
   60, 61, 62, 62, 63, 63, 64, 65, 65, 66, 66, 67, 68, 68, 69, 69]

/-- The table `Y_B`, 256 entries. -/
def Y_B : List Int :=
  [25, 25, 26, 26, 26, 26, 26, 26, 26, 26, 26, 27, 27, 27, 27, 27,
   27, 27, 27, 27, 28, 28, 28, 28, 28, 28, 28, 28, 28, 29, 29, 29,
   29, 29, 29, 29, 29, 30, 30, 30, 30, 30, 30, 30, 30, 30, 31, 31,
   31, 31, 31, 31, 31, 31, 31, 32, 32, 32, 32, 32, 32, 32, 32, 32,
   33, 33, 33, 33, 33, 33, 33, 33, 34, 34, 34, 34, 34, 34, 34, 34,
   34, 35, 35, 35, 35, 35, 35, 35, 35, 35, 36, 36, 36, 36, 36, 36,
   36, 36, 36, 37, 37, 37, 37, 37, 37, 37, 37, 38, 38, 38, 38, 38,
   38, 38, 38, 38, 39, 39, 39, 39, 39, 39, 39, 39, 39, 40, 40, 40,
   40, 40, 40, 40, 40, 40, 41, 41, 41, 41, 41, 41, 41, 41, 41, 42,
   42, 42, 42, 42, 42, 42, 42, 43, 43, 43, 43, 43, 43, 43, 43, 43,
   44, 44, 44, 44, 44, 44, 44, 44, 44, 45, 45, 45, 45, 45, 45, 45,
   45, 45, 46, 46, 46, 46, 46, 46, 46, 46, 47, 47, 47, 47, 47, 47,
   47, 47, 47, 48, 48, 48, 48, 48, 48, 48, 48, 48, 49, 49, 49, 49,
   49, 49, 49, 49, 49, 50, 50, 50, 50, 50, 50, 50, 50, 51, 51, 51,
   51, 51, 51, 51, 51, 51, 52, 52, 52, 52, 52, 52, 52, 52, 52, 53,
   53, 53, 53, 53, 53, 53, 53, 53, 54, 54, 54, 54, 54, 54, 54, 54]

/-- The function `int Y(int r, int g, int b)`: `Y_R[r] + Y_G[g] + Y_B[b]`. -/
def Y (r g b : Nat) : Option Int :=
  match Y_R[r]?, Y_G[g]?, Y_B[b]? with
  | some yr, some yg, some yb => some (yr + yg + yb)
  | _, _, _ => none

/-- The table `U_R`, 256 entries. -/
def U_R : List Int :=
  [30, 30, 30, 30, 30, 30, 31, 31, 31, 31, 31, 32, 32, 32, 32, 32,
   32, 33, 33, 33, 33, 33, 33, 34, 34, 34, 34, 34, 34, 35, 35, 35,
   35, 35, 35, 36, 36, 36, 36, 36, 36, 37, 37, 37, 37, 37, 37, 38,
   38, 38, 38, 38, 38, 39, 39, 39, 39, 39, 39, 40, 40, 40, 40, 40,
   40, 41, 41, 41, 41, 41, 41, 42, 42, 42, 42, 42, 42, 43, 43, 43,
   43, 43, 43, 44, 44, 44, 44, 44, 45, 45, 45, 45, 45, 45, 46, 46,
   46, 46, 46, 46, 47, 47, 47, 47, 47, 47, 48, 48, 48, 48, 48, 48,
   49, 49, 49, 49, 49, 49, 50, 50, 50, 50, 50, 50, 51, 51, 51, 51,
   51, 51, 52, 52, 52, 52, 52, 52, 53, 53, 53, 53, 53, 53, 54, 54,
   54, 54, 54, 54, 55, 55, 55, 55, 55, 55, 56, 56, 56, 56, 56, 56,
   57, 57, 57, 57, 57, 57, 58, 58, 58, 58, 58, 59, 59, 59, 59, 59,
   59, 60, 60, 60, 60, 60, 60, 61, 61, 61, 61, 61, 61, 62, 62, 62,
   62, 62, 62, 63, 63, 63, 63, 63, 63, 64, 64, 64, 64, 64, 64, 65,
   65, 65, 65, 65, 65, 66, 66, 66, 66, 66, 66, 67, 67, 67, 67, 67,
   67, 68, 68, 68, 68, 68, 68, 69, 69, 69, 69, 69, 69, 70, 70, 70,
   70, 70, 70, 71, 71, 71, 71, 71, 72, 72, 72, 72, 72, 72, 73, 73]

/-- The table `U_G`, 256 entries. -/
def U_G : List Int :=
  [-45, -44, -44, -44, -43, -43, -43, -42, -42, -42, -41, -41, -41, -40, -40, -40,
   -39, -39, -39, -38, -38, -38, -37, -37, -37, -36, -36, -36, -35, -35, -35, -34,
   -34, -34, -33, -33, -33, -32, -32, -32, -31, -31, -31, -30, -30, -30, -29, -29,
   -29, -28, -28, -28, -27, -27, -27, -26, -26, -26, -25, -25, -25, -24, -24, -24,
   -23, -23, -23, -22, -22, -22, -21, -21, -21, -20, -20, -20, -19, -19, -19, -18,
   -18, -18, -17, -17, -17, -16, -16, -16, -15, -15, -15, -14, -14, -14, -14, -13,
   -13, -13, -12, -12, -12, -11, -11, -11, -10, -10, -10, -9, -9, -9, -8, -8,
   -8, -7, -7, -7, -6, -6, -6, -5, -5, -5, -4, -4, -4, -3, -3, -3,
   -2, -2, -2, -1, -1, -1, 0, 0, 0, 0, 0, 0, 1, 1, 1, 2,
   2, 2, 3, 3, 3, 4, 4, 4, 5, 5, 5, 6, 6, 6, 7, 7,
   7, 8, 8, 8, 9, 9, 9, 10, 10, 10, 11, 11, 11, 12, 12, 12,
   13, 13, 13, 14, 14, 14, 15, 15, 15, 16, 16, 16, 17, 17, 17, 18,
   18, 18, 19, 19, 19, 20, 20, 20, 21, 21, 21, 22, 22, 22, 23, 23,
   23, 24, 24, 24, 25, 25, 25, 26, 26, 26, 27, 27, 27, 28, 28, 28,
   29, 29, 29, 30, 30, 30, 31, 31, 31, 32, 32, 32, 33, 33, 33, 34,
   34, 34, 35, 35, 35, 36, 36, 36, 37, 37, 37, 38, 38, 38, 39, 39]

/-- The table `U_B`, 256 entries. -/
def U_B : List Int :=
  [113, 113, 114, 114, 115, 115, 116, 116, 117, 117, 118, 118, 119, 119, 120, 120,
   121, 121, 122, 122, 123, 123, 124, 124, 125, 125, 126, 126, 127, 127, 128, 128,
   129, 129, 130, 130, 131, 131, 132, 132, 133, 133, 134, 134, 135, 135, 136, 136,
   137, 137, 138, 138, 139, 139, 140, 140, 141, 141, 142, 142, 143, 143, 144, 144,
   145, 145, 146, 146, 147, 147, 148, 148, 149, 149, 150, 150, 151, 151, 152, 152,
   153, 153, 154, 154, 155, 155, 156, 156, 157, 157, 158, 158, 159, 159, 160, 160,
   161, 161, 162, 162, 163, 163, 164, 164, 165, 165, 166, 166, 167, 167, 168, 168,
   169, 169, 170, 170, 171, 171, 172, 172, 173, 173, 174, 174, 175, 175, 176, 176,
   177, 177, 178, 178, 179, 179, 180, 180, 181, 181, 182, 182, 183, 183, 184, 184,
   185, 185, 186, 186, 187, 187, 188, 188, 189, 189, 190, 190, 191, 191, 192, 192,
   193, 193, 194, 194, 195, 195, 196, 196, 197, 197, 198, 198, 199, 199, 200, 200,
   201, 201, 202, 202, 203, 203, 204, 204, 205, 205, 206, 206, 207, 207, 208, 208,
   209, 209, 210, 210, 211, 211, 212, 212, 213, 213, 214, 214, 215, 215, 216, 216,
   217, 217, 218, 218, 219, 219, 220, 220, 221, 221, 222, 222, 223, 223, 224, 224,
   225, 225, 226, 226, 227, 227, 228, 228, 229, 229, 230, 230, 231, 231, 232, 232,
   233, 233, 234, 234, 235, 235, 236, 236, 237, 237, 238, 238, 239, 239, 240, 240]

/-- The function `int U(int r, int g, int b)`: `-U_R[r] - U_G[g] + U_B[b]`. -/
def U (r g b : Nat) : Option Int :=
  match U_R[r]?, U_G[g]?, U_B[b]? with
  | some ur, some ug, some ub => some (-ur - ug + ub)
  | _, _, _ => none

/-- The table `V_R`, 256 entries. -/
def V_R : List Int :=
  [89, 90, 90, 91, 91, 92, 92, 93, 93, 94, 94, 95, 95, 96, 96, 97,
   97, 98, 98, 99, 99, 100, 100, 101, 101, 102, 102, 103, 103, 104, 104, 105,
   105, 106, 106, 107, 107, 108, 108, 109, 109, 110, 110, 111, 111, 112, 112, 113,
   113, 114, 114, 115, 115, 116, 116, 117, 117, 118, 118, 119, 119, 120, 120, 121,
   121, 122, 122, 123, 123, 124, 124, 125, 125, 126, 126, 127, 127, 128, 128, 129,
   129, 130, 130, 131, 131, 132, 132, 133, 133, 134, 134, 135, 135, 136, 136, 137,
   137, 138, 138, 139, 139, 140, 140, 141, 141, 142, 142, 143, 143, 144, 144, 145,
   145, 146, 146, 147, 147, 148, 148, 149, 149, 150, 150, 151, 151, 152, 152, 153,
   153, 154, 154, 155, 155, 156, 156, 157, 157, 158, 158, 159, 159, 160, 160, 161,
   161, 162, 162, 163, 163, 164, 164, 165, 165, 166, 166, 167, 167, 168, 168, 169,
   169, 170, 170, 171, 171, 172, 172, 173, 173, 174, 174, 175, 175, 176, 176, 177,
   177, 178, 178, 179, 179, 180, 180, 181, 181, 182, 182, 183, 183, 184, 184, 185,
   185, 186, 186, 187, 187, 188, 188, 189, 189, 190, 190, 191, 191, 192, 192, 193,
   193, 194, 194, 195, 195, 196, 196, 197, 197, 198, 198, 199, 199, 200, 200, 201,
   201, 202, 202, 203, 203, 204, 205, 205, 206, 206, 207, 207, 208, 208, 209, 209,
   210, 210, 211, 211, 212, 212, 213, 213, 214, 214, 215, 215, 216, 216, 217, 217]

/-- The table `V_G`, 256 entries. -/
def V_G : List Int :=
  [-57, -56, -56, -55, -55, -55, -54, -54, -53, -53, -52, -52, -52, -51, -51, -50,
   -50, -50, -49, -49, -48, -48, -47, -47, -47, -46, -46, -45, -45, -45, -44, -44,
   -43, -43, -42, -42, -42, -41, -41, -40, -40, -39, -39, -39, -38, -38, -37, -37,
   -37, -36, -36, -35, -35, -34, -34, -34, -33, -33, -32, -32, -31, -31, -31, -30,
   -30, -29, -29, -29, -28, -28, -27, -27, -26, -26, -26, -25, -25, -24, -24, -24,
   -23, -23, -22, -22, -21, -21, -21, -20, -20, -19, -19, -18, -18, -18, -17, -17,
   -16, -16, -16, -15, -15, -14, -14, -13, -13, -13, -12, -12, -11, -11, -10, -10,
   -10, -9, -9, -8, -8, -8, -7, -7, -6, -6, -5, -5, -5, -4, -4, -3,
   -3, -3, -2, -2, -1, -1, 0, 0, 0, 0, 0, 1, 1, 2, 2, 2,
   3, 3, 4, 4, 4, 5, 5, 6, 6, 7, 7, 7, 8, 8, 9, 9,
   10, 10, 10, 11, 11, 12, 12, 12, 13, 13, 14, 14, 15, 15, 15, 16,
   16, 17, 17, 17, 18, 18, 19, 19, 20, 20, 20, 21, 21, 22, 22, 23,
   23, 23, 24, 24, 25, 25, 25, 26, 26, 27, 27, 28, 28, 28, 29, 29,
   30, 30, 31, 31, 31, 32, 32, 33, 33, 33, 34, 34, 35, 35, 36, 36,
   36, 37, 37, 38, 38, 38, 39, 39, 40, 40, 41, 41, 41, 42, 42, 43,
   43, 44, 44, 44, 45, 45, 46, 46, 46, 47, 47, 48, 48, 49, 49, 49]

/-- The table `V_B`, 256 entries. -/
def V_B : List Int :=
  [18, 18, 18, 18, 18, 18, 18, 19, 19, 19, 19, 19, 19, 19, 19, 19,
   19, 19, 19, 19, 20, 20, 20, 20, 20, 20, 20, 20, 20, 20, 20, 20,
   21, 21, 21, 21, 21, 21, 21, 21, 21, 21, 21, 21, 22, 22, 22, 22,
   22, 22, 22, 22, 22, 22, 22, 22, 23, 23, 23, 23, 23, 23, 23, 23,
   23, 23, 23, 23, 23, 24, 24, 24, 24, 24, 24, 24, 24, 24, 24, 24,
   24, 25, 25, 25, 25, 25, 25, 25, 25, 25, 25, 25, 25, 26, 26, 26,
   26, 26, 26, 26, 26, 26, 26, 26, 26, 27, 27, 27, 27, 27, 27, 27,
   27, 27, 27, 27, 27, 27, 28, 28, 28, 28, 28, 28, 28, 28, 28, 28,
   28, 28, 29, 29, 29, 29, 29, 29, 29, 29, 29, 29, 29, 29, 30, 30,
   30, 30, 30, 30, 30, 30, 30, 30, 30, 30, 31, 31, 31, 31, 31, 31,
   31, 31, 31, 31, 31, 31, 31, 32, 32, 32, 32, 32, 32, 32, 32, 32,
   32, 32, 32, 33, 33, 33, 33, 33, 33, 33, 33, 33, 33, 33, 33, 34,
   34, 34, 34, 34, 34, 34, 34, 34, 34, 34, 34, 35, 35, 35, 35, 35,
   35, 35, 35, 35, 35, 35, 35, 35, 36, 36, 36, 36, 36, 36, 36, 36,
   36, 36, 36, 36, 37, 37, 37, 37, 37, 37, 37, 37, 37, 37, 37, 37,
   38, 38, 38, 38, 38, 38, 38, 38, 38, 38, 38, 38, 39, 39, 39, 39]

/-- The function `int V(int r, int g, int b)`: `V_R[r] - V_G[g] - V_B[b]`. -/
def V (r g b : Nat) : Option Int :=
  match V_R[r]?, V_G[g]?, V_B[b]? with
  | some vr, some vg, some vb => some (vr - vg - vb)
  | _, _, _ => none

end YuvTable

/-- The function `std::clamp(v, lo, hi)` on `int`. -/
def clamp (v lo hi : Int) : Int :=
  if v < lo then lo else if hi < v then hi else v

/-- The expression `static_cast<u16>(std::clamp(a, 0, 0xFF) | (std::clamp(c, 0, 0xFF) << 8))`.
Both clamped operands are non-negative, so the bit operations are those of the
natural numbers; the cast keeps the low 16 bits. -/
def pack16 (a c : Int) : Nat :=
  ((clamp a 0 0xFF).toNat ||| ((clamp c 0 0xFF).toNat <<< 8)) % 2 ^ 16

/-- The variables of the loop of `Rgb2Yuv`: the output vector, the position of
the iterator `dst` in it, the flag `write`, and `py`, `pu`, `pv`. -/
structure Rgb2YuvState where
  buffer : List Nat
  dst : Nat
  write : Bool
  py : Int
  pu : Int
  pv : Int
  deriving DecidableEq, Repr

/-- One pass through the body of the loop of `Rgb2Yuv`, for the pixel `rgba`.  The
two stores through `dst` need both positions inside `buffer`. -/
def Rgb2Yuv.body (s : Rgb2YuvState) (rgba : Nat) : Option Rgb2YuvState :=
  let r := (rgba >>> 16) &&& 0xFF
  let g := (rgba >>> 8) &&& 0xFF
  let b := (rgba >>> 0) &&& 0xFF
  match YuvTable.Y r g b, YuvTable.U r g b, YuvTable.V r g b with
  | some y, some u, some v =>
      if s.write then
        let pu := (s.pu + u).tdiv 2
        let pv := (s.pv + v).tdiv 2
        if s.dst + 1 < s.buffer.length then
          some ⟨(s.buffer.set s.dst (pack16 s.py pu)).set (s.dst + 1) (pack16 y pv),
            s.dst + 2, false, s.py, pu, pv⟩
        else none
      else some ⟨s.buffer, s.dst, true, y, u, v⟩
  | _, _, _ => none

/-- The function `void Rgb2Yuv(std::vector<u16>& buffer, const std::vector<u32>& image)`,
returning the final `buffer`.  The loop runs over the pixels of `image` in order
(its counter is a `u32`, so `image` has fewer than `2 ^ 32` pixels); `py`, `pu`
and `pv` start uninitialised and are assigned before they are read, they are 0
here. -/
def Rgb2Yuv (buffer image : List Nat) : Option (List Nat) :=
  (image.foldlM Rgb2Yuv.body ⟨buffer, 0, false, 0, 0, 0⟩).map (fun s => s.buffer)

/-- The function `u16 RGBA8888toRGB565(u32 px)`; the result is converted to `u16`. -/
def RGBA8888toRGB565 (px : Nat) : Nat :=
  (((px >>> 3) &&& 0x001F) ||| ((px >>> 5) &&& 0x07E0) ||| ((px >>> 8) &&& 0xF800)) % 2 ^ 16

/-- The function `void ConvertRGBA8888ToRGB565(std::vector<u16>& dst, const std::vector<u32>& image)`,
returning the final `dst`: for `i` from 0 up to `dst.size()`, `dst[i]` becomes
`RGBA8888toRGB565(image[i])`. -/
def ConvertRGBA8888ToRGB565 (dst image : List Nat) : Option (List Nat) :=
  (List.range dst.length).foldlM
    (fun d i => match image[i]? with
      | some px => some (d.set i (RGBA8888toRGB565 px))
      | none => none) dst

/-- The index `idx` computed in `ProcessImage` for the pixel `(x, y)`, in `u32`
arithmetic:
`(flip_vertical ? (height - y) : y) * width + (flip_horizontal ? width - x : x)`. -/
def ProcessImage.idx (width height : Nat) (flip_horizontal flip_vertical : Bool) (x y : Nat) :
    Nat :=
  ((if flip_vertical then (height + 2 ^ 32 - y) % 2 ^ 32 else y) * width +
    (if flip_horizontal then (width + 2 ^ 32 - x) % 2 ^ 32 else x)) % 2 ^ 32

/-- The two nested loops of `ProcessImage` that fill `data` from `image`:
`data[y * width + x] = image[idx]` for `y` below `height` and `x` below `width`. -/
def ProcessImage.fill (image : List Nat) (width height : Nat)
    (flip_horizontal flip_vertical : Bool) (data : List Nat) : Option (List Nat) :=
  (List.range height).foldlM
    (fun d y => (List.range width).foldlM
      (fun d x =>
        match image[ProcessImage.idx width height flip_horizontal flip_vertical x y]? with
        | some px => if y * width + x < d.length then some (d.set (y * width + x) px) else none
        | none => none) d) data

/-- The function `std::vector<u16> ProcessImage(image, width, height, output_rgb,
flip_horizontal, flip_vertical)`. -/
def ProcessImage (image : List Nat) (width height : Nat)
    (output_rgb flip_horizontal flip_vertical : Bool) : Option (List Nat) :=
  let buffer := List.replicate (width * height) 0
  if image.isEmpty then some buffer
  else
    match ProcessImage.fill image width height flip_horizontal flip_vertical
        (List.replicate (width * height) 0) with
    | some data =>
        if output_rgb then ConvertRGBA8888ToRGB565 buffer data else Rgb2Yuv buffer data
    | none => none

/-- The value `clamp(a, 0, 255) | (clamp(c, 0, 255) << 8)`, as a natural number
and with no cast. -/
def yuyv (a c : Int) : Nat :=
  (clamp a 0 255).toNat ||| ((clamp c 0 255).toNat <<< 8)

/-- The triple `(Y, U, V)` of a pixel, with `(r, g, b)` taken from bits 16-23,
8-15 and 0-7 of the pixel. -/
def pixelYUV (px : Nat) : Option (Int × Int × Int) :=
  let r := px / 2 ^ 16 % 256
  let g := px / 2 ^ 8 % 256
  let b := px % 256
  match YuvTable.Y r g b, YuvTable.U r g b, YuvTable.V r g b with
  | some y, some u, some v => some (y, u, v)
  | _, _, _ => none

/-- The YUYV-style pair of two neighbouring pixels `p0`, `p1`: the first element
carries `Y(p0)` and the truncated mean of the two `U`, the second carries `Y(p1)`
and the truncated mean of the two `V`. -/
def yuyvPair (p0 p1 : Nat) : Option (Nat × Nat) :=
  match pixelYUV p0, pixelYUV p1 with
  | some (y0, u0, v0), some (y1, u1, v1) =>
      some (yuyv y0 ((u0 + u1).tdiv 2), yuyv y1 ((v0 + v1).tdiv 2))
  | _, _ => none

/-- The 5-6-5 packing of the three low bytes of a pixel: the top 5 bits of byte
0, the top 6 bits of byte 1 and the top 5 bits of byte 2. -/
def pack565 (px : Nat) : Nat :=
  (Pica.byteLane px 0 >>> 3) ||| ((Pica.byteLane px 1 >>> 2) <<< 5) |||
    ((Pica.byteLane px 2 >>> 3) <<< 11)

end CameraUtil

namespace Pica

/-! ## Bit-level lemmas -/

theorem testBit_u32_high {x j : Nat} (hx : isU32 x) (hj : 32 ≤ j) : x.testBit j = false := by
  apply Nat.testBit_lt_two_pow
  calc x < 2 ^ 32 := hx
    _ ≤ 2 ^ j := Nat.pow_le_pow_right (by decide) hj

theorem expand_isU32 {m wm : Nat} (h : Regs.expand_bits_to_bytes[m]? = some wm) : isU32 wm := by
  have hm : m < 16 := by
    have := (List.getElem?_eq_some_iff.mp h).1
    simpa [Regs.expand_bits_to_bytes] using this
  interval_cases m <;> simp [Regs.expand_bits_to_bytes] at h <;> subst h <;> decide

theorem expand_testBit {m wm : Nat} (h : Regs.expand_bits_to_bytes[m]? = some wm) (j : Nat) :
    wm.testBit j = (decide (j < 32) && m.testBit (j / 8)) := by
  by_cases hj : j < 32
  · have hm : m < 16 := by
      have := (List.getElem?_eq_some_iff.mp h).1
      simpa [Regs.expand_bits_to_bytes] using this
    interval_cases m <;> simp [Regs.expand_bits_to_bytes] at h <;> subst h <;>
      interval_cases j <;> decide
  · rw [testBit_u32_high (expand_isU32 h) (by omega)]
    simp [hj]

theorem not32_testBit (x j : Nat) : (not32 x).testBit j = (decide (j < 32) ^^ x.testBit j) := by
  have h : (0xFFFFFFFF : Nat) = 2 ^ 32 - 1 := by decide
  rw [not32, Nat.testBit_xor, h, Nat.testBit_two_pow_sub_one]

theorem byteLane_testBit (w k i : Nat) :
    (byteLane w k).testBit i = (w.testBit (8 * k + i) && decide (i < 8)) := by
  have h : (0xFF : Nat) = 2 ^ 8 - 1 := by decide
  rw [byteLane, Nat.testBit_and, Nat.testBit_shiftRight, h, Nat.testBit_two_pow_sub_one]

/-- The bits of the word stored by `Write`: inside an enabled lane they are the
bits of `value`, elsewhere below bit 32 they are the bits of `old`. -/
theorem merged_testBit {m wm : Nat} (h : Regs.expand_bits_to_bytes[m]? = some wm)
    (old value j : Nat) :
    ((old &&& not32 wm) ||| (value &&& wm)).testBit j =
      (decide (j < 32) && (if m.testBit (j / 8) then value.testBit j else old.testBit j)) := by
  rw [Nat.testBit_or, Nat.testBit_and, Nat.testBit_and, not32_testBit, expand_testBit h]
  by_cases hj : j < 32 <;> cases m.testBit (j / 8) <;> simp [hj]

/-! ## Structure of `Write` -/

theorem expand_get {m : Nat} (hm : m < 16) :
    ∃ wm, Regs.expand_bits_to_bytes[m]? = some wm := by
  have h : m < Regs.expand_bits_to_bytes.length := by simpa [Regs.expand_bits_to_bytes] using hm
  exact ⟨_, List.getElem?_eq_getElem h⟩

theorem expand_none {m : Nat} (hm : 16 ≤ m) : Regs.expand_bits_to_bytes[m]? = none := by
  apply List.getElem?_eq_none
  simpa [Regs.expand_bits_to_bytes] using hm

theorem Regs.Write_some {r : Regs} {id value m old wm : Nat}
    (ho : r.reg_array[id]? = some old) (hw : Regs.expand_bits_to_bytes[m]? = some wm) :
    r.Write id value m =
      some ⟨r.reg_array.set id ((old &&& not32 wm) ||| (value &&& wm))⟩ := by
  simp [Regs.Write, ho, hw]

theorem Regs.Write_none_of_id {r : Regs} {id : Nat} (value m : Nat)
    (h : r.reg_array.length ≤ id) : r.Write id value m = none := by
  simp [Regs.Write, List.getElem?_eq_none h]

theorem Regs.Write_none_of_mask {r : Regs} (id value : Nat) {m : Nat}
    (h : 16 ≤ m) : r.Write id value m = none := by
  simp only [Regs.Write, expand_none h]
  cases r.reg_array[id]? <;> rfl

theorem Regs.get_of_lt {r : Regs} {id : Nat} (h : id < r.reg_array.length) :
    ∃ old, r.reg_array[id]? = some old :=
  ⟨_, List.getElem?_eq_getElem h⟩

theorem get_set_self {l : List Nat} {i : Nat} (h : i < l.length) (a : Nat) :
    (l.set i a)[i]? = some a := by
  simp [List.getElem?_set, h]

theorem testBit_15 {k : Nat} (hk : k < 4) : (15 : Nat).testBit k = true := by
  interval_cases k <;> decide

/-- With the full mask the stored word has exactly the low 32 bits of `value`. -/
theorem merged_full_testBit (old value j : Nat) :
    ((old &&& not32 0xffffffff) ||| (value &&& 0xffffffff)).testBit j =
      (decide (j < 32) && value.testBit j) := by
  have h : Regs.expand_bits_to_bytes[15]? = some 0xffffffff := by decide
  rw [merged_testBit h]
  by_cases hj : j < 32
  · rw [testBit_15 (by omega)]; simp
  · simp [hj]

theorem merged_full (old : Nat) {value : Nat} (hv : isU32 value) :
    ((old &&& not32 0xffffffff) ||| (value &&& 0xffffffff)) = value := by
  apply Nat.eq_of_testBit_eq
  intro j
  rw [merged_full_testBit]
  by_cases hj : j < 32
  · simp [hj]
  · rw [testBit_u32_high hv (by omega)]; simp

theorem merged_zero {old : Nat} (ho : isU32 old) (value : Nat) :
    ((old &&& not32 0) ||| (value &&& 0)) = old := by
  apply Nat.eq_of_testBit_eq
  intro j
  have h : Regs.expand_bits_to_bytes[0]? = some 0 := by decide
  rw [merged_testBit h]
  by_cases hj : j < 32
  · simp [hj]
  · rw [testBit_u32_high ho (by omega)]; simp

theorem replicate_get (a : Nat) {i : Nat} (h : i < Regs.NUM_REGS) :
    (List.replicate Regs.NUM_REGS a)[i]? = some a := by
  rw [List.getElem?_eq_getElem (by simpa using h)]
  simp

theorem zero_length : Regs.zero.reg_array.length = Regs.NUM_REGS := by
  simp [Regs.zero]

theorem zero_WF : Regs.zero.WF := by
  refine ⟨zero_length, ?_⟩
  intro w hw
  have : w = 0 := by
    simp only [Regs.zero] at hw
    exact (List.mem_replicate.mp hw).2
  subst this
  decide

/-! ## The masked write -/

/-- C1: `Write` is byte-lane selective.  For an index below 0x300, a mask `m` in
0..15 and a lane `k` in 0..3, the call succeeds, and lane `k` of the word stored
afterwards is lane `k` of `value` when bit `k` of `m` is set and lane `k` of the
word stored before when it is clear. -/
theorem Write_byte_lane_selective (r : Regs) (id value m k : Nat)
    (hlen : r.reg_array.length = Regs.NUM_REGS) (hid : id < 0x300) (hm : m < 16) (hk : k < 4) :
    ∃ old new r1, r.reg_array[id]? = some old ∧ r.Write id value m = some r1 ∧
      r1.reg_array[id]? = some new ∧
      byteLane new k = if m.testBit k = true then byteLane value k else byteLane old k := by
  have hid2 : id < r.reg_array.length := by rw [hlen]; exact hid
  obtain ⟨old, ho⟩ := Regs.get_of_lt hid2
  obtain ⟨wm, hw⟩ := expand_get hm
  refine ⟨old, _, _, ho, Regs.Write_some ho hw, get_set_self hid2 _, ?_⟩
  apply Nat.eq_of_testBit_eq
  intro i
  rw [byteLane_testBit, merged_testBit hw]
  by_cases hi : i < 8
  · have hdiv : (8 * k + i) / 8 = k := by omega
    have hlt : 8 * k + i < 32 := by omega
    rw [hdiv]
    cases hb : m.testBit k <;> simp [byteLane_testBit, hi, hlt]
  · cases hb : m.testBit k <;> simp [byteLane_testBit, hi]

/-- Witness of C1: on the zeroed register file, writing 0xAABBCCDD to index 5
with mask 0b0101 and looking at lane 2. -/
theorem Write_byte_lane_selective_witness :
    ∃ old new r1, Regs.zero.reg_array[5]? = some old ∧
      Regs.zero.Write 5 0xAABBCCDD 5 = some r1 ∧ r1.reg_array[5]? = some new ∧
      byteLane new 2 =
        if (5 : Nat).testBit 2 = true then byteLane 0xAABBCCDD 2 else byteLane old 2 :=
  Write_byte_lane_selective Regs.zero 5 0xAABBCCDD 5 2 zero_length (by decide) (by decide)
    (by decide)

/-- C2: the mask-expansion table is the byte-broadcast function.  Entry `m` of
`expand_bits_to_bytes` is the sum over the lanes `k = 0..3` of bit `k` of `m`
times `0xFF << 8k`, for each of the 16 masks; entry 0b0000 is 0x00000000, entry
0b0101 is 0x00FF00FF and entry 0b1111 is 0xFFFFFFFF; the table has 16 entries. -/
theorem expand_bits_to_bytes_byteBroadcast :
    (∀ m : Fin 16, Regs.expand_bits_to_bytes[m.val]? = some (byteBroadcast m.val)) ∧
    Regs.expand_bits_to_bytes[0b0000]? = some 0x00000000 ∧
    Regs.expand_bits_to_bytes[0b0101]? = some 0x00FF00FF ∧
    Regs.expand_bits_to_bytes[0b1111]? = some 0xFFFFFFFF ∧
    Regs.expand_bits_to_bytes.length = 16 := by
  refine ⟨?_, by decide, by decide, by decide, by decide⟩
  decide

/-- C3: a write with mask 0xF stores `value`.  For an index below 0x300 and a
32-bit `value` the call succeeds and the word stored afterwards is `value`,
whatever was stored before. -/
theorem Write_full_mask_stores_value (r : Regs) (id value : Nat)
    (hlen : r.reg_array.length = Regs.NUM_REGS) (hid : id < 0x300) (hv : isU32 value) :
    ∃ r1, r.Write id value 0xF = some r1 ∧ r1.reg_array[id]? = some value := by
  have hid2 : id < r.reg_array.length := by rw [hlen]; exact hid
  obtain ⟨old, ho⟩ := Regs.get_of_lt hid2
  have hw : Regs.expand_bits_to_bytes[0xF]? = some 0xffffffff := by decide
  refine ⟨_, Regs.Write_some ho hw, ?_⟩
  rw [merged_full old hv]
  exact get_set_self hid2 _

/-- Witness of C3: writing 0xAABBCCDD to index 0x2FF of the zeroed register file. -/
theorem Write_full_mask_stores_value_witness :
    ∃ r1, Regs.zero.Write 0x2FF 0xAABBCCDD 0xF = some r1 ∧
      r1.reg_array[0x2FF]? = some 0xAABBCCDD :=
  Write_full_mask_stores_value Regs.zero 0x2FF 0xAABBCCDD zero_length (by decide) (by decide)

/-- C4: a write with mask 0 leaves the addressed word unchanged.  For an index
below 0x300 of a well-formed register file the call succeeds and the word stored
afterwards is the word stored before. -/
theorem Write_zero_mask_unchanged (r : Regs) (id value : Nat)
    (hwf : r.WF) (hid : id < 0x300) :
    ∃ old r1, r.reg_array[id]? = some old ∧ r.Write id value 0 = some r1 ∧
      r1.reg_array[id]? = some old := by
  have hid2 : id < r.reg_array.length := by rw [hwf.1]; exact hid
  obtain ⟨old, ho⟩ := Regs.get_of_lt hid2
  have hw : Regs.expand_bits_to_bytes[0]? = some 0 := by decide
  have hou : isU32 old := hwf.2 old (List.getElem?_mem ho)
  refine ⟨old, _, ho, Regs.Write_some ho hw, ?_⟩
  rw [merged_zero hou]
  exact get_set_self hid2 _

/-- Witness of C4: writing 0xAABBCCDD with mask 0 to index 7 of the zeroed
register file. -/
theorem Write_zero_mask_unchanged_witness :
    ∃ old r1, Regs.zero.reg_array[7]? = some old ∧
      Regs.zero.Write 7 0xAABBCCDD 0 = some r1 ∧ r1.reg_array[7]? = some old :=
  Write_zero_mask_unchanged Regs.zero 7 0xAABBCCDD zero_WF (by decide)

/-- C5: the concrete byte-wise masking case.  For an index below 0x300 whose
stored word is 0x12345678, `Write(i, 0xAABBCCDD, 0b0001)` succeeds and the word
stored afterwards is 0x123456DD. -/
theorem Write_low_lane_concrete (r : Regs) (i : Nat)
    (hlen : r.reg_array.length = Regs.NUM_REGS) (hi : i < 0x300)
    (hold : r.reg_array[i]? = some 0x12345678) :
    ∃ r1, r.Write i 0xAABBCCDD 0b0001 = some r1 ∧ r1.reg_array[i]? = some 0x123456DD := by
  have hi2 : i < r.reg_array.length := by rw [hlen]; exact hi
  have hw : Regs.expand_bits_to_bytes[0b0001]? = some 0x000000ff := by decide
  refine ⟨_, Regs.Write_some hold hw, ?_⟩
  have hval : ((0x12345678 &&& not32 0x000000ff) ||| (0xAABBCCDD &&& 0x000000ff)) = 0x123456DD := by
    decide
  rw [hval]
  exact get_set_self hi2 _

/-- Witness of C5: the register file whose every word is 0x12345678, at index 3. -/
theorem Write_low_lane_concrete_witness :
    ∃ r1, (Regs.mk (List.replicate Regs.NUM_REGS 0x12345678)).Write 3 0xAABBCCDD 0b0001 = some r1 ∧
      r1.reg_array[3]? = some 0x123456DD :=
  Write_low_lane_concrete ⟨List.replicate Regs.NUM_REGS 0x12345678⟩ 3 (by simp) (by decide)
    (replicate_get _ (by decide))

/-- C6: full-mask writes are idempotent.  For an index below 0x300, any value
and any starting state of 0x300 words, `Write(i, v, 0xF)` succeeds, and the same
call on the resulting state succeeds and returns that state again. -/
theorem Write_full_mask_idempotent (r : Regs) (i v : Nat)
    (hlen : r.reg_array.length = Regs.NUM_REGS) (hi : i < 0x300) :
    ∃ r1, r.Write i v 0xF = some r1 ∧ r1.Write i v 0xF = some r1 := by
  have hi2 : i < r.reg_array.length := by rw [hlen]; exact hi
  obtain ⟨old, ho⟩ := Regs.get_of_lt hi2
  have hw : Regs.expand_bits_to_bytes[0xF]? = some 0xffffffff := by decide
  refine ⟨_, Regs.Write_some ho hw, ?_⟩
  rw [Regs.Write_some (get_set_self hi2 _) hw]
  have hsame : ∀ a b : Nat, ((a &&& not32 0xffffffff) ||| (v &&& 0xffffffff)) =
      ((b &&& not32 0xffffffff) ||| (v &&& 0xffffffff)) := by
    intro a b
    apply Nat.eq_of_testBit_eq
    intro j
    rw [merged_full_testBit, merged_full_testBit]
  rw [List.set_set, hsame ((old &&& not32 0xffffffff) ||| (v &&& 0xffffffff)) old]

/-- Witness of C6: writing 0xAABBCCDD twice to index 0x10 of the zeroed register
file. -/
theorem Write_full_mask_idempotent_witness :
    ∃ r1, Regs.zero.Write 0x10 0xAABBCCDD 0xF = some r1 ∧
      r1.Write 0x10 0xAABBCCDD 0xF = some r1 :=
  Write_full_mask_idempotent Regs.zero 0x10 0xAABBCCDD zero_length (by decide)

/-- C7, as stated, fails: with mask 16 the lookup `expand_bits_to_bytes[16]` is
outside the 16-entry table and the call has no defined result, while the call
with `16 & 0xF = 0` succeeds. -/
theorem Write_mask_16_undefined :
    Regs.zero.Write 0 0 16 = none ∧ (Regs.zero.Write 0 0 (16 &&& 0xF)).isSome = true ∧
    ¬ ((Regs.zero.Write 0 0 16).isSome = true ∧
        Regs.zero.Write 0 0 16 = Regs.zero.Write 0 0 (16 &&& 0xF)) := by
  have h1 : Regs.zero.Write 0 0 16 = none := Regs.Write_none_of_mask 0 0 (by decide)
  refine ⟨h1, ?_, ?_⟩
  · have ho : Regs.zero.reg_array[0]? = some 0 := replicate_get 0 (by decide)
    have hw : Regs.expand_bits_to_bytes[16 &&& 0xF]? = some 0 := by decide
    rw [Regs.Write_some ho hw]
    rfl
  · rw [h1]
    simp

/-- C7, amended: `Write` applies no truncation to `mask`.  For an index below
0x300, a mask in 0..15 makes the call succeed with the same result as the mask
`mask & 0xF` (which is then `mask` itself); a mask of 16 or more indexes the
expansion table out of range and the call has no defined result, although the
call with `mask & 0xF` would succeed. -/
theorem Write_mask_not_truncated (r : Regs) (id value mask : Nat)
    (hlen : r.reg_array.length = Regs.NUM_REGS) (hid : id < 0x300) :
    (mask < 16 → (r.Write id value mask).isSome = true ∧
        r.Write id value mask = r.Write id value (mask &&& 0xF)) ∧
    (16 ≤ mask → r.Write id value mask = none ∧
        (r.Write id value (mask &&& 0xF)).isSome = true) := by
  have hid2 : id < r.reg_array.length := by rw [hlen]; exact hid
  obtain ⟨old, ho⟩ := Regs.get_of_lt hid2
  have hand : mask &&& 0xF < 16 := by
    have h : (0xF : Nat) = 2 ^ 4 - 1 := by decide
    rw [h, Nat.and_pow_two_sub_one_eq_mod]
    exact Nat.mod_lt _ (by decide)
  constructor
  · intro hm
    obtain ⟨wm, hw⟩ := expand_get hm
    have heq : mask &&& 0xF = mask := by
      have h : (0xF : Nat) = 2 ^ 4 - 1 := by decide
      rw [h, Nat.and_pow_two_sub_one_eq_mod]
      exact Nat.mod_eq_of_lt hm
    rw [heq, Regs.Write_some ho hw]
    exact ⟨rfl, rfl⟩
  · intro hm
    obtain ⟨wm, hw⟩ := expand_get hand
    rw [Regs.Write_some ho hw]
    exact ⟨Regs.Write_none_of_mask id value hm, rfl⟩

/-- Witness of C7, amended: index 0 of the zeroed register file with mask 16. -/
theorem Write_mask_not_truncated_witness :
    ((16 : Nat) < 16 → (Regs.zero.Write 0 0 16).isSome = true ∧
        Regs.zero.Write 0 0 16 = Regs.zero.Write 0 0 (16 &&& 0xF)) ∧
    (16 ≤ 16 → Regs.zero.Write 0 0 16 = none ∧
        (Regs.zero.Write 0 0 (16 &&& 0xF)).isSome = true) :=
  Write_mask_not_truncated Regs.zero 0 0 16 zero_length (by decide)

/-- C8, as stated, fails: `Write(0x300, 0, 0)` reads `reg_array[0x300]`, outside
the 0x300 stored words; the call has no defined result, so it is not the call
that returns with the register file unchanged. -/
theorem Write_index_0x300_undefined :
    Regs.zero.Write 0x300 0 0 = none ∧ ¬ (Regs.zero.Write 0x300 0 0 = some Regs.zero) := by
  have h1 : Regs.zero.Write 0x300 0 0 = none :=
    Regs.Write_none_of_id 0 0 (by rw [zero_length]; decide)
  refine ⟨h1, ?_⟩
  rw [h1]
  simp

/-- C8, amended: `Write` has no range check on `id`.  On a register file of 0x300
words, every index of 0x300 or more makes the call read `reg_array[id]` out of
bounds, so it has no defined result; the call is defined exactly when the index
is below 0x300 and the mask is in 0..15. -/
theorem Write_defined_iff (r : Regs) (id value mask : Nat)
    (hlen : r.reg_array.length = Regs.NUM_REGS) :
    (0x300 ≤ id → r.Write id value mask = none) ∧
    ((r.Write id value mask).isSome = true ↔ id < 0x300 ∧ mask < 16) := by
  have hout : 0x300 ≤ id → r.Write id value mask = none := by
    intro h
    exact Regs.Write_none_of_id value mask (by rw [hlen]; exact h)
  refine ⟨hout, ?_, ?_⟩
  · intro h
    by_contra hc
    have hnone : r.Write id value mask = none := by
      by_cases h1 : id < 0x300
      · exact Regs.Write_none_of_mask id value (by omega)
      · exact hout (by omega)
    rw [hnone] at h
    simp at h
  · rintro ⟨h1, h2⟩
    obtain ⟨old, ho⟩ := @Regs.get_of_lt r id (by rw [hlen]; exact h1)
    obtain ⟨wm, hw⟩ := expand_get h2
    rw [Regs.Write_some ho hw]
    rfl

/-- Witness of C8, amended: index 0x300 of the zeroed register file. -/
theorem Write_defined_iff_witness :
    (0x300 ≤ 0x300 → Regs.zero.Write 0x300 0xAABBCCDD 0xF = none) ∧
    ((Regs.zero.Write 0x300 0xAABBCCDD 0xF).isSome = true ↔ 0x300 < 0x300 ∧ 0xF < 16) :=
  Write_defined_iff Regs.zero 0x300 0xAABBCCDD 0xF zero_length

/-! ## The layout -/

/-- The block sizes are forced by the `static_assert`s of `regs.h`: these are the
only word counts with which the header compiles. -/
theorem staticAsserts_iff (s : BlockSizes) : staticAsserts s ↔ s = picaBlockSizes := by
  constructor
  · intro h
    obtain ⟨rast, tex, fb, light, pipe, sh⟩ := s
    simp only [staticAsserts, ASSERT_REG_POSITION, offsetof, offsetofFrom, Regs.members, sizeof,
      sizeofRegs, Regs.NUM_REGS, List.map, List.sum_cons, List.sum_nil] at h
    simp only [reduceCtorEq, if_false, if_true, Option.some.injEq] at h
    simp only [picaBlockSizes, BlockSizes.mk.injEq]
    omega
  · rintro rfl
    decide

/-- C9: the named-member layout matches the documented register map.
`trigger_irq` is at word 0x10 and `rasterizer` at word 0x40 = 0x10 + 1 + 0x2f,
whatever the block sizes; with the block sizes of the register map, `texturing`,
`framebuffer`, `lighting`, `pipeline`, `gs` and `vs` start at words 0x80, 0x100,
0x140, 0x200, 0x280 and 0x2B0, the word ranges of the members in declaration
order do not overlap, `vs` ends at 0x2E0, and with the 0x20 trailing padding
words the struct is 0xC00 bytes, which is 0x300 words; all `static_assert`s
hold. -/
theorem layout_matches_register_map :
    (∀ s, PICA_REG_INDEX s .trigger_irq = some 0x10) ∧
    (∀ s, PICA_REG_INDEX s .rasterizer = some 0x40) ∧
    (0x10 + 1 + 0x2f = 0x40) ∧
    PICA_REG_INDEX picaBlockSizes .texturing = some 0x80 ∧
    PICA_REG_INDEX picaBlockSizes .framebuffer = some 0x100 ∧
    PICA_REG_INDEX picaBlockSizes .lighting = some 0x140 ∧
    PICA_REG_INDEX picaBlockSizes .pipeline = some 0x200 ∧
    PICA_REG_INDEX picaBlockSizes .gs = some 0x280 ∧
    PICA_REG_INDEX picaBlockSizes .vs = some 0x2B0 ∧
    [Field.trigger_irq, .rasterizer, .texturing, .framebuffer, .lighting, .pipeline, .gs,
        .vs].map (wordRange picaBlockSizes) =
      [some (0x10, 0x11), some (0x40, 0x80), some (0x80, 0x100), some (0x100, 0x140),
        some (0x140, 0x200), some (0x200, 0x280), some (0x280, 0x2B0), some (0x2B0, 0x2E0)] ∧
    List.Pairwise (fun a b => a.2 ≤ b.1)
      ([Field.trigger_irq, .rasterizer, .texturing, .framebuffer, .lighting, .pipeline, .gs,
        .vs].filterMap (wordRange picaBlockSizes)) ∧
    0x2E0 + 0x20 = Regs.NUM_REGS ∧
    sizeofRegs picaBlockSizes = 0xC00 ∧
    sizeofRegs picaBlockSizes = Regs.NUM_REGS * sizeof picaBlockSizes .u32 ∧
    staticAsserts picaBlockSizes := by
  have h1 : ∀ s, PICA_REG_INDEX s .trigger_irq = some 0x10 := by
    intro s
    simp [PICA_REG_INDEX, offsetof, offsetofFrom, Regs.members, sizeof]
  have h2 : ∀ s, PICA_REG_INDEX s .rasterizer = some 0x40 := by
    intro s
    simp [PICA_REG_INDEX, offsetof, offsetofFrom, Regs.members, sizeof]
  refine ⟨h1, h2, by decide, by decide, by decide, by decide, by decide,
    by decide, by decide, by decide, by decide, by decide, by decide, by decide, by decide⟩

/-! ## The size invariant -/

theorem Regs.Write_length {r r1 : Regs} {id value mask : Nat}
    (h : r.Write id value mask = some r1) : r1.reg_array.length = r.reg_array.length := by
  unfold Regs.Write at h
  split at h
  · cases h
    simp
  · cases h

theorem Regs.Write_isSome {r : Regs} {id mask : Nat} (value : Nat)
    (hid : id < r.reg_array.length) (hm : mask < 16) :
    ∃ r1, r.Write id value mask = some r1 := by
  obtain ⟨old, ho⟩ := Regs.get_of_lt hid
  obtain ⟨wm, hw⟩ := expand_get hm
  exact ⟨_, Regs.Write_some ho hw⟩

theorem Regs.WriteAll_length (ws : List (Nat × Nat × Nat)) :
    ∀ r : Regs, r.reg_array.length = Regs.NUM_REGS →
      (∀ w ∈ ws, w.1 < 0x300 ∧ w.2.2 < 16) →
      ∃ r1, r.WriteAll ws = some r1 ∧ r1.reg_array.length = Regs.NUM_REGS := by
  induction ws with
  | nil =>
    intro r hlen _
    exact ⟨r, rfl, hlen⟩
  | cons w ws ih =>
    intro r hlen hws
    obtain ⟨id, value, mask⟩ := w
    have hw := hws (id, value, mask) (List.mem_cons_self _ _)
    obtain ⟨r1, h1⟩ := @Regs.Write_isSome r _ _ value (by rw [hlen]; exact hw.1) hw.2
    have hlen1 : r1.reg_array.length = Regs.NUM_REGS := by
      rw [Regs.Write_length h1, hlen]
    obtain ⟨r2, h2, hlen2⟩ := ih r1 hlen1 (fun w hmem => hws w (List.mem_cons_of_mem _ hmem))
    refine ⟨r2, ?_, hlen2⟩
    simp only [Regs.WriteAll, h1]
    exact h2

/-- C10: the register file always holds exactly `NUM_REGS = 0x300` words.  From a
state of 0x300 words, every `Write` with index below 0x300 and mask in 0..15
succeeds and yields a state of 0x300 words, and so does every finite sequence of
such writes. -/
theorem Write_preserves_NUM_REGS (r : Regs) (hlen : r.reg_array.length = Regs.NUM_REGS) :
    (∀ id value mask, id < 0x300 → mask < 16 →
      ∃ r1, r.Write id value mask = some r1 ∧ r1.reg_array.length = 0x300) ∧
    (∀ ws : List (Nat × Nat × Nat), (∀ w ∈ ws, w.1 < 0x300 ∧ w.2.2 < 16) →
      ∃ r1, r.WriteAll ws = some r1 ∧ r1.reg_array.length = 0x300) := by
  constructor
  · intro id value mask hid hm
    obtain ⟨r1, h1⟩ := @Regs.Write_isSome r _ _ value (by rw [hlen]; exact hid) hm
    exact ⟨r1, h1, by rw [Regs.Write_length h1, hlen]; rfl⟩
  · intro ws hws
    exact Regs.WriteAll_length ws r hlen hws

/-- Witness of C10: the zeroed register file. -/
theorem Write_preserves_NUM_REGS_witness :
    (∀ id value mask, id < 0x300 → mask < 16 →
      ∃ r1, Regs.zero.Write id value mask = some r1 ∧ r1.reg_array.length = 0x300) ∧
    (∀ ws : List (Nat × Nat × Nat), (∀ w ∈ ws, w.1 < 0x300 ∧ w.2.2 < 16) →
      ∃ r1, Regs.zero.WriteAll ws = some r1 ∧ r1.reg_array.length = 0x300) :=
  Write_preserves_NUM_REGS Regs.zero zero_length

/-! ## Effects of `Write` beyond the addressed word -/

theorem or_lt_16 {m1 m2 : Nat} (h1 : m1 < 16) (h2 : m2 < 16) : m1 ||| m2 < 16 := by
  have h : (16 : Nat) = 2 ^ 4 := by decide
  rw [h] at h1 h2 ⊢
  exact Nat.or_lt_two_pow h1 h2

/-- Two writes of the same value merge like one write under the union of the
masks. -/
theorem merged_merged {m1 m2 w1 w2 w3 : Nat}
    (h1 : Regs.expand_bits_to_bytes[m1]? = some w1)
    (h2 : Regs.expand_bits_to_bytes[m2]? = some w2)
    (h3 : Regs.expand_bits_to_bytes[m1 ||| m2]? = some w3) (old v : Nat) :
    ((((old &&& not32 w1) ||| (v &&& w1)) &&& not32 w2) ||| (v &&& w2)) =
      ((old &&& not32 w3) ||| (v &&& w3)) := by
  apply Nat.eq_of_testBit_eq
  intro j
  rw [merged_testBit h2, merged_testBit h1, merged_testBit h3, Nat.testBit_or]
  by_cases hj : j < 32 <;> cases m1.testBit (j / 8) <;> cases m2.testBit (j / 8) <;> simp [hj]

/-- C11, as stated, fails: a `Write` of 1 with mask 0xF to index 0x10 succeeds
and stores the word, and the number of interrupt events forwarded is still 0,
not 1. -/
theorem Write_trigger_irq_forwards_nothing :
    ∃ w1, (World.mk Regs.zero 0).Write 0x10 1 0xF = some w1 ∧ w1.regs.reg_array[0x10]? = some 1 ∧
      w1.interrupts = 0 ∧ ¬ (w1.interrupts = 0 + 1) := by
  have ho : Regs.zero.reg_array[0x10]? = some 0 := replicate_get 0 (by decide)
  have hw : Regs.expand_bits_to_bytes[0xF]? = some 0xffffffff := by decide
  have h1 : (1 : Nat) < 2 ^ 32 := by decide
  refine ⟨⟨⟨Regs.zero.reg_array.set 0x10 ((0 &&& not32 0xffffffff) ||| (1 &&& 0xffffffff))⟩, 0⟩,
    ?_, ?_, rfl, by decide⟩
  · simp only [World.Write, Regs.Write_some ho hw]
  · rw [merged_full 0 h1]
    exact get_set_self (by rw [zero_length]; decide) _

/-- C11, amended: `Write` itself forwards no interrupt event.  For every value
and every mask in 0..15, a `Write` to index 0x10 succeeds, replaces
`reg_array[0x10]` just as `Regs::Write` does at any index, and leaves the number
of forwarded interrupt events as it was, independent of the value. -/
theorem Write_trigger_irq_no_event (w : World) (value mask : Nat)
    (hlen : w.regs.reg_array.length = Regs.NUM_REGS) (hm : mask < 16) :
    ∃ w1, w.Write 0x10 value mask = some w1 ∧
      w.regs.Write 0x10 value mask = some w1.regs ∧ w1.interrupts = w.interrupts := by
  have hid : 0x10 < w.regs.reg_array.length := by rw [hlen]; decide
  obtain ⟨old, ho⟩ := Regs.get_of_lt hid
  obtain ⟨wm, hw⟩ := expand_get hm
  refine ⟨⟨_, w.interrupts⟩, ?_, Regs.Write_some ho hw, rfl⟩
  simp only [World.Write, Regs.Write_some ho hw]

/-- Witness of C11, amended: writing 0xAABBCCDD with mask 0b0011 to index 0x10
of the zeroed register file, with no event forwarded before. -/
theorem Write_trigger_irq_no_event_witness :
    ∃ w1, (World.mk Regs.zero 0).Write 0x10 0xAABBCCDD 0b0011 = some w1 ∧
      (World.mk Regs.zero 0).regs.Write 0x10 0xAABBCCDD 0b0011 = some w1.regs ∧
      w1.interrupts = (World.mk Regs.zero 0).interrupts :=
  Write_trigger_irq_no_event ⟨Regs.zero, 0⟩ 0xAABBCCDD 0b0011 zero_length (by decide)

/-- C12: `Write` touches only the addressed word.  For an index `id` below 0x300
and a mask in 0..15 the call succeeds, and every word at an index `j` below
0x300 other than `id` is afterwards what it was before. -/
theorem Write_frame (r : Regs) (id value mask j : Nat)
    (hlen : r.reg_array.length = Regs.NUM_REGS) (hid : id < 0x300) (hm : mask < 16)
    (hj : j < 0x300) (hne : j ≠ id) :
    ∃ r1, r.Write id value mask = some r1 ∧ r1.reg_array[j]? = r.reg_array[j]? ∧
      (r1.reg_array[j]?).isSome = true := by
  have hid2 : id < r.reg_array.length := by rw [hlen]; exact hid
  have hj2 : j < r.reg_array.length := by rw [hlen]; exact hj
  obtain ⟨old, ho⟩ := Regs.get_of_lt hid2
  obtain ⟨wm, hw⟩ := expand_get hm
  obtain ⟨wj, hwj⟩ := Regs.get_of_lt hj2
  have hkeep : (r.reg_array.set id ((old &&& not32 wm) ||| (value &&& wm)))[j]? =
      r.reg_array[j]? := List.getElem?_set_ne (Ne.symm hne)
  refine ⟨_, Regs.Write_some ho hw, hkeep, ?_⟩
  rw [hkeep, hwj]
  rfl

/-- Witness of C12: writing to index 5 of the zeroed register file and looking at
index 6. -/
theorem Write_frame_witness :
    ∃ r1, Regs.zero.Write 5 0xAABBCCDD 0xF = some r1 ∧
      r1.reg_array[6]? = Regs.zero.reg_array[6]? ∧ (r1.reg_array[6]?).isSome = true :=
  Write_frame Regs.zero 5 0xAABBCCDD 0xF 6 zero_length (by decide) (by decide) (by decide)
    (by decide)

/-- C13: partial writes of the same value compose by mask union.  For an index
below 0x300 and masks `m1`, `m2` in 0..15, `Write(i, v, m1)` followed by
`Write(i, v, m2)` succeeds and yields the register state of the single
`Write(i, v, m1 | m2)`. -/
theorem Write_mask_union (r : Regs) (i v m1 m2 : Nat)
    (hlen : r.reg_array.length = Regs.NUM_REGS) (hi : i < 0x300) (h1 : m1 < 16)
    (h2 : m2 < 16) :
    ∃ r1 r2, r.Write i v m1 = some r1 ∧ r1.Write i v m2 = some r2 ∧
      r.Write i v (m1 ||| m2) = some r2 := by
  have hi2 : i < r.reg_array.length := by rw [hlen]; exact hi
  obtain ⟨old, ho⟩ := Regs.get_of_lt hi2
  obtain ⟨w1, hw1⟩ := expand_get h1
  obtain ⟨w2, hw2⟩ := expand_get h2
  obtain ⟨w3, hw3⟩ := expand_get (or_lt_16 h1 h2)
  refine ⟨_, _, Regs.Write_some ho hw1, Regs.Write_some (get_set_self hi2 _) hw2, ?_⟩
  rw [Regs.Write_some ho hw3, List.set_set, merged_merged hw1 hw2 hw3]

/-- Witness of C13: masks 0b0001 and 0b0100 at index 9 of the zeroed register
file. -/
theorem Write_mask_union_witness :
    ∃ r1 r2, Regs.zero.Write 9 0xAABBCCDD 0b0001 = some r1 ∧
      r1.Write 9 0xAABBCCDD 0b0100 = some r2 ∧
      Regs.zero.Write 9 0xAABBCCDD (0b0001 ||| 0b0100) = some r2 :=
  Write_mask_union Regs.zero 9 0xAABBCCDD 0b0001 0b0100 zero_length (by decide) (by decide)
    (by decide)

end Pica

set_option maxRecDepth 100000

namespace CameraUtil
open Pica

/-! ## Flipping in `ProcessImage` -/

/-- C14 fails on the code: with `flip_vertical` the source row is `height - y`,
which is `height` for `y = 0`, one past the last row.  For a 2 by 2 image the
pixel `(0, 0)` gets index 4, which is not below `2 * 2`, and the call has no
defined result; `flip_horizontal` alone gives index 4 for the pixel `(0, 1)`, and
that call has no defined result either.  Without flipping the call returns. -/
theorem ProcessImage_flip_out_of_bounds :
    ProcessImage.idx 2 2 false true 0 0 = 4 ∧
    ¬ (ProcessImage.idx 2 2 false true 0 0 < 2 * 2) ∧
    ProcessImage [1, 2, 3, 4] 2 2 false false true = none ∧
    ProcessImage.idx 2 2 true false 0 1 = 4 ∧
    ProcessImage [1, 2, 3, 4] 2 2 false true false = none ∧
    (ProcessImage [1, 2, 3, 4] 2 2 false false false).isSome = true := by
  refine ⟨by decide, by decide, by decide, by decide, by decide, by decide⟩

/-! ## The conversion tables -/

theorem table_get {t : List Int} {lo hi : Int} (hlen : t.length = 256)
    (hall : t.all (fun a => decide (lo ≤ a) && decide (a ≤ hi)) = true) {i : Nat}
    (hi256 : i < 256) : ∃ a, t[i]? = some a ∧ lo ≤ a ∧ a ≤ hi := by
  have hi2 : i < t.length := by rw [hlen]; exact hi256
  refine ⟨t[i], List.getElem?_eq_getElem hi2, ?_⟩
  have h := List.all_eq_true.mp hall t[i] (List.getElem_mem hi2)
  simpa using h

theorem Y_R_get {i : Nat} (h : i < 256) : ∃ a, YuvTable.Y_R[i]? = some a ∧ 53 ≤ a ∧ a ≤ 129 :=
  table_get (by decide) (by decide) h

theorem Y_G_get {i : Nat} (h : i < 256) : ∃ a, YuvTable.Y_G[i]? = some a ∧ -79 ≤ a ∧ a ≤ 69 :=
  table_get (by decide) (by decide) h

theorem Y_B_get {i : Nat} (h : i < 256) : ∃ a, YuvTable.Y_B[i]? = some a ∧ 25 ≤ a ∧ a ≤ 54 :=
  table_get (by decide) (by decide) h

theorem U_R_get {i : Nat} (h : i < 256) : ∃ a, YuvTable.U_R[i]? = some a ∧ 30 ≤ a ∧ a ≤ 73 :=
  table_get (by decide) (by decide) h

theorem U_G_get {i : Nat} (h : i < 256) : ∃ a, YuvTable.U_G[i]? = some a ∧ -45 ≤ a ∧ a ≤ 39 :=
  table_get (by decide) (by decide) h

theorem U_B_get {i : Nat} (h : i < 256) : ∃ a, YuvTable.U_B[i]? = some a ∧ 113 ≤ a ∧ a ≤ 240 :=
  table_get (by decide) (by decide) h

theorem V_R_get {i : Nat} (h : i < 256) : ∃ a, YuvTable.V_R[i]? = some a ∧ 89 ≤ a ∧ a ≤ 217 :=
  table_get (by decide) (by decide) h

theorem V_G_get {i : Nat} (h : i < 256) : ∃ a, YuvTable.V_G[i]? = some a ∧ -57 ≤ a ∧ a ≤ 49 :=
  table_get (by decide) (by decide) h

theorem V_B_get {i : Nat} (h : i < 256) : ∃ a, YuvTable.V_B[i]? = some a ∧ 18 ≤ a ∧ a ≤ 39 :=
  table_get (by decide) (by decide) h

theorem Y_get {r g b : Nat} (hr : r < 256) (hg : g < 256) (hb : b < 256) :
    ∃ y, YuvTable.Y r g b = some y ∧ -1 ≤ y ∧ y ≤ 252 := by
  obtain ⟨yr, h1, _, _⟩ := Y_R_get hr
  obtain ⟨yg, h2, _, _⟩ := Y_G_get hg
  obtain ⟨yb, h3, _, _⟩ := Y_B_get hb
  refine ⟨yr + yg + yb, by simp only [YuvTable.Y, h1, h2, h3], by omega, by omega⟩

theorem U_get {r g b : Nat} (hr : r < 256) (hg : g < 256) (hb : b < 256) :
    ∃ u, YuvTable.U r g b = some u ∧ 1 ≤ u ∧ u ≤ 255 := by
  obtain ⟨ur, h1, _, _⟩ := U_R_get hr
  obtain ⟨ug, h2, _, _⟩ := U_G_get hg
  obtain ⟨ub, h3, _, _⟩ := U_B_get hb
  refine ⟨-ur - ug + ub, by simp only [YuvTable.U, h1, h2, h3], by omega, by omega⟩

theorem V_get {r g b : Nat} (hr : r < 256) (hg : g < 256) (hb : b < 256) :
    ∃ v, YuvTable.V r g b = some v ∧ 1 ≤ v ∧ v ≤ 256 := by
  obtain ⟨vr, h1, _, _⟩ := V_R_get hr
  obtain ⟨vg, h2, _, _⟩ := V_G_get hg
  obtain ⟨vb, h3, _, _⟩ := V_B_get hb
  refine ⟨vr - vg - vb, by simp only [YuvTable.V, h1, h2, h3], by omega, by omega⟩

theorem clamp_id {v lo hi : Int} (h1 : lo ≤ v) (h2 : v ≤ hi) : clamp v lo hi = v := by
  unfold clamp
  rw [if_neg (by omega), if_neg (by omega)]

theorem tdiv_two_bounds {a lo hi : Int} (h0 : 0 ≤ a) (h1 : 2 * lo ≤ a) (h2 : a ≤ 2 * hi + 1) :
    lo ≤ a.tdiv 2 ∧ a.tdiv 2 ≤ hi := by
  rw [Int.tdiv_eq_ediv h0 (by decide)]
  omega

/-! ## RGB to YUV -/

theorem shift_and_0xFF (x n : Nat) : (x >>> n) &&& 0xFF = x / 2 ^ n % 256 := by
  have h : (0xFF : Nat) = 2 ^ 8 - 1 := by decide
  rw [h, Nat.and_pow_two_sub_one_eq_mod, Nat.shiftRight_eq_div_pow]

theorem pixelYUV_get (px : Nat) :
    ∃ y u v, pixelYUV px = some (y, u, v) ∧
      YuvTable.Y ((px >>> 16) &&& 0xFF) ((px >>> 8) &&& 0xFF) ((px >>> 0) &&& 0xFF) = some y ∧
      YuvTable.U ((px >>> 16) &&& 0xFF) ((px >>> 8) &&& 0xFF) ((px >>> 0) &&& 0xFF) = some u ∧
      YuvTable.V ((px >>> 16) &&& 0xFF) ((px >>> 8) &&& 0xFF) ((px >>> 0) &&& 0xFF) = some v := by
  have hr : px / 2 ^ 16 % 256 < 256 := Nat.mod_lt _ (by decide)
  have hg : px / 2 ^ 8 % 256 < 256 := Nat.mod_lt _ (by decide)
  have hb : px % 256 < 256 := Nat.mod_lt _ (by decide)
  obtain ⟨y, hy, _⟩ := Y_get hr hg hb
  obtain ⟨u, hu, _⟩ := U_get hr hg hb
  obtain ⟨v, hv, _⟩ := V_get hr hg hb
  have e0 : (px >>> 0) &&& 0xFF = px % 256 := by
    rw [shift_and_0xFF, Nat.pow_zero, Nat.div_one]
  rw [shift_and_0xFF px 16, shift_and_0xFF px 8, e0]
  exact ⟨y, u, v, by simp only [pixelYUV, hy, hu, hv], hy, hu, hv⟩

theorem clamp_bounds (v : Int) : 0 ≤ clamp v 0 255 ∧ clamp v 0 255 ≤ 255 := by
  unfold clamp
  split
  · omega
  · split <;> omega

theorem pack16_eq_yuyv (a c : Int) : pack16 a c = yuyv a c := by
  unfold pack16 yuyv
  apply Nat.mod_eq_of_lt
  have ha := clamp_bounds a
  have hc := clamp_bounds c
  have h1 : (clamp a 0 255).toNat < 2 ^ 16 := by omega
  have h2 : (clamp c 0 255).toNat <<< 8 < 2 ^ 16 := by
    rw [Nat.shiftLeft_eq]
    omega
  exact Nat.or_lt_two_pow h1 h2

/-- The body of the loop, once the three lookups for the pixel are known. -/
theorem Rgb2Yuv.body_eq (s : Rgb2YuvState) {px : Nat} {y u v : Int}
    (hy : YuvTable.Y ((px >>> 16) &&& 0xFF) ((px >>> 8) &&& 0xFF) ((px >>> 0) &&& 0xFF) = some y)
    (hu : YuvTable.U ((px >>> 16) &&& 0xFF) ((px >>> 8) &&& 0xFF) ((px >>> 0) &&& 0xFF) = some u)
    (hv : YuvTable.V ((px >>> 16) &&& 0xFF) ((px >>> 8) &&& 0xFF) ((px >>> 0) &&& 0xFF) = some v) :
    Rgb2Yuv.body s px =
      if s.write = true then
        if s.dst + 1 < s.buffer.length then
          some ⟨(s.buffer.set s.dst (yuyv s.py ((s.pu + u).tdiv 2))).set (s.dst + 1)
              (yuyv y ((s.pv + v).tdiv 2)),
            s.dst + 2, false, s.py, (s.pu + u).tdiv 2, (s.pv + v).tdiv 2⟩
        else none
      else some ⟨s.buffer, s.dst, true, y, u, v⟩ := by
  simp only [Rgb2Yuv.body, hy, hu, hv, pack16_eq_yuyv]

/-- The loop of `Rgb2Yuv` started between two pairs: it returns, keeps the size
of the output, writes one pair of elements per pair of pixels from `dst` on, and
leaves the other elements as they were. -/
theorem Rgb2Yuv.fold_pairs : ∀ (image buf : List Nat) (dst : Nat) (py pu pv : Int),
    dst + 2 * (image.length / 2) ≤ buf.length →
    ∃ s, image.foldlM Rgb2Yuv.body ⟨buf, dst, false, py, pu, pv⟩ = some s ∧
      s.buffer.length = buf.length ∧
      (∀ k, k < image.length / 2 →
        ∃ p0 p1 a b, image[2 * k]? = some p0 ∧ image[2 * k + 1]? = some p1 ∧
          yuyvPair p0 p1 = some (a, b) ∧
          s.buffer[dst + 2 * k]? = some a ∧ s.buffer[dst + 2 * k + 1]? = some b) ∧
      (∀ i, i < dst ∨ dst + 2 * (image.length / 2) ≤ i → s.buffer[i]? = buf[i]?)
  | [], buf, dst, py, pu, pv, _ =>
    ⟨⟨buf, dst, false, py, pu, pv⟩, rfl, rfl,
      fun k hk => absurd hk (Nat.not_lt_zero k), fun _ _ => rfl⟩
  | [p], buf, dst, py, pu, pv, _ => by
    obtain ⟨y, u, v, _, hy, hu, hv⟩ := pixelYUV_get p
    refine ⟨⟨buf, dst, true, y, u, v⟩, ?_, rfl, ?_, fun _ _ => rfl⟩
    · simp [List.foldlM, Rgb2Yuv.body_eq _ hy hu hv]
    · intro k hk
      have h0 : [p].length / 2 = 0 := by simp
      rw [h0] at hk
      exact absurd hk (Nat.not_lt_zero k)
  | p0 :: p1 :: rest, buf, dst, py, pu, pv, hlen => by
    obtain ⟨y0, u0, v0, hp0, hy0, hu0, hv0⟩ := pixelYUV_get p0
    obtain ⟨y1, u1, v1, hp1, hy1, hu1, hv1⟩ := pixelYUV_get p1
    have hl : (p0 :: p1 :: rest).length / 2 = rest.length / 2 + 1 := by
      simp only [List.length_cons]; omega
    rw [hl] at hlen
    obtain ⟨s, hs, hslen, hpairs, hframe⟩ :=
      Rgb2Yuv.fold_pairs rest
        ((buf.set dst (yuyv y0 ((u0 + u1).tdiv 2))).set (dst + 1) (yuyv y1 ((v0 + v1).tdiv 2)))
        (dst + 2) y0 ((u0 + u1).tdiv 2) ((v0 + v1).tdiv 2)
        (by simp only [List.length_set]; omega)
    have hpair : yuyvPair p0 p1 =
        some (yuyv y0 ((u0 + u1).tdiv 2), yuyv y1 ((v0 + v1).tdiv 2)) := by
      simp only [yuyvPair, hp0, hp1]
    have hd1 : dst + 1 < buf.length := by omega
    refine ⟨s, ?_, ?_, ?_, ?_⟩
    · have hd : dst + 1 < buf.length := hd1
      simp [List.foldlM, Rgb2Yuv.body_eq _ hy0 hu0 hv0, Rgb2Yuv.body_eq _ hy1 hu1 hv1, hd]
      exact hs
    · rw [hslen]; simp
    · intro k hk
      rw [hl] at hk
      cases k with
      | zero =>
        have e0 : dst + 2 * 0 = dst := by omega
        refine ⟨p0, p1, _, _, rfl, by simp, hpair, ?_, ?_⟩
        · rw [e0, hframe dst (Or.inl (by omega)), List.getElem?_set_ne (by omega)]
          simp [List.getElem?_set]
          omega
        · rw [e0, hframe (dst + 1) (Or.inl (by omega))]
          simp [List.getElem?_set]
          omega
      | succ k =>
        obtain ⟨q0, q1, a, b, hq0, hq1, hab, ha, hb⟩ := hpairs k (by omega)
        refine ⟨q0, q1, a, b, ?_, ?_, hab, ?_, ?_⟩
        · have e : 2 * (k + 1) = (2 * k + 1) + 1 := by omega
          rw [e, List.getElem?_cons_succ, List.getElem?_cons_succ]
          exact hq0
        · have e : 2 * (k + 1) + 1 = (2 * k + 1 + 1) + 1 := by omega
          rw [e, List.getElem?_cons_succ, List.getElem?_cons_succ]
          exact hq1
        · have e : dst + 2 * (k + 1) = dst + 2 + 2 * k := by omega
          rw [e]; exact ha
        · have e : dst + 2 * (k + 1) + 1 = dst + 2 + 2 * k + 1 := by omega
          rw [e]; exact hb
    · intro i hi
      rw [hl] at hi
      rw [hframe i (by omega), List.getElem?_set_ne (by omega), List.getElem?_set_ne (by omega)]

/-- C15: `Rgb2Yuv` emits one YUYV-style pair per two input pixels.  For an image
of `n` pixels and a buffer of at least `2 * (n / 2)` elements the call returns
and keeps the size of the buffer; for every `k` below `n / 2` the elements `2k`
and `2k + 1` of the result are the pair of the pixels `2k` and `2k + 1`, that is
`clamp(Y(p0)) | (clamp((U(p0) + U(p1)) / 2) << 8)` and
`clamp(Y(p1)) | (clamp((V(p0) + V(p1)) / 2) << 8)` with truncating division; the
elements from `2 * (n / 2)` on are those of the buffer before the call. -/
theorem Rgb2Yuv_pairs (buffer image : List Nat)
    (hbuf : 2 * (image.length / 2) ≤ buffer.length) :
    ∃ out, Rgb2Yuv buffer image = some out ∧ out.length = buffer.length ∧
      (∀ k, k < image.length / 2 →
        ∃ p0 p1 a b, image[2 * k]? = some p0 ∧ image[2 * k + 1]? = some p1 ∧
          yuyvPair p0 p1 = some (a, b) ∧
          out[2 * k]? = some a ∧ out[2 * k + 1]? = some b) ∧
      (∀ i, 2 * (image.length / 2) ≤ i → out[i]? = buffer[i]?) := by
  obtain ⟨s, hs, hlen, hpairs, hframe⟩ :=
    Rgb2Yuv.fold_pairs image buffer 0 0 0 0 (by omega)
  refine ⟨s.buffer, ?_, hlen, ?_, ?_⟩
  · simp only [Rgb2Yuv, hs, Option.map_some']
  · intro k hk
    obtain ⟨p0, p1, a, b, h0, h1, hab, ha, hb⟩ := hpairs k hk
    rw [Nat.zero_add] at ha hb
    exact ⟨p0, p1, a, b, h0, h1, hab, ha, hb⟩
  · intro i hi
    exact hframe i (Or.inr (by omega))

/-- Witness of C15: three pixels (red, green, blue) into a buffer of five
elements. -/
theorem Rgb2Yuv_pairs_witness :
    ∃ out, Rgb2Yuv [7, 7, 7, 7, 7] [0x00FF0000, 0x0000FF00, 0x000000FF] = some out ∧
      out.length = [7, 7, 7, 7, 7].length ∧
      (∀ k, k < [0x00FF0000, 0x0000FF00, 0x000000FF].length / 2 →
        ∃ p0 p1 a b, [0x00FF0000, 0x0000FF00, 0x000000FF][2 * k]? = some p0 ∧
          [0x00FF0000, 0x0000FF00, 0x000000FF][2 * k + 1]? = some p1 ∧
          yuyvPair p0 p1 = some (a, b) ∧
          out[2 * k]? = some a ∧ out[2 * k + 1]? = some b) ∧
      (∀ i, 2 * ([0x00FF0000, 0x0000FF00, 0x000000FF].length / 2) ≤ i →
        out[i]? = [7, 7, 7, 7, 7][i]?) :=
  Rgb2Yuv_pairs [7, 7, 7, 7, 7] [0x00FF0000, 0x0000FF00, 0x000000FF] (by decide)

/-! ## RGB565 conversion -/

theorem testBit_0x1F (j : Nat) : (0x001F : Nat).testBit j = decide (j < 5) := by
  have h : (0x001F : Nat) = 2 ^ 5 - 1 := by decide
  rw [h, Nat.testBit_two_pow_sub_one]

theorem testBit_0x07E0 (j : Nat) : (0x07E0 : Nat).testBit j = (decide (j ≥ 5) && decide (j - 5 < 6)) := by
  have h : (0x07E0 : Nat) = (2 ^ 6 - 1) <<< 5 := by decide
  rw [h, Nat.testBit_shiftLeft, Nat.testBit_two_pow_sub_one]

theorem testBit_0xF800 (j : Nat) : (0xF800 : Nat).testBit j = (decide (j ≥ 11) && decide (j - 11 < 5)) := by
  have h : (0xF800 : Nat) = (2 ^ 5 - 1) <<< 11 := by decide
  rw [h, Nat.testBit_shiftLeft, Nat.testBit_two_pow_sub_one]

theorem RGBA8888toRGB565_testBit (px j : Nat) :
    (RGBA8888toRGB565 px).testBit j =
      ((px.testBit (3 + j) && decide (j < 5)) ||
        (px.testBit (5 + j) && (decide (j ≥ 5) && decide (j - 5 < 6))) ||
        (px.testBit (8 + j) && (decide (j ≥ 11) && decide (j - 11 < 5)))) := by
  rw [RGBA8888toRGB565, Nat.testBit_mod_two_pow, Nat.testBit_or, Nat.testBit_or,
    Nat.testBit_and, Nat.testBit_and, Nat.testBit_and, Nat.testBit_shiftRight,
    Nat.testBit_shiftRight, Nat.testBit_shiftRight, testBit_0x1F, testBit_0x07E0, testBit_0xF800]
  by_cases h : j < 16
  · simp [h]
  · have h1 : ¬ j < 5 := by omega
    have h2 : ¬ j - 5 < 6 := by omega
    have h3 : ¬ j - 11 < 5 := by omega
    simp [h, h1, h2, h3]

theorem pack565_testBit (px j : Nat) :
    (pack565 px).testBit j =
      ((px.testBit (3 + j) && decide (j < 5)) ||
        (px.testBit (5 + j) && (decide (j ≥ 5) && decide (j - 5 < 6))) ||
        (px.testBit (8 + j) && (decide (j ≥ 11) && decide (j - 11 < 5)))) := by
  rw [pack565, Nat.testBit_or, Nat.testBit_or, Nat.testBit_shiftLeft, Nat.testBit_shiftLeft,
    Nat.testBit_shiftRight, Nat.testBit_shiftRight, Nat.testBit_shiftRight, byteLane_testBit,
    byteLane_testBit, byteLane_testBit]
  by_cases h5 : j < 5
  · have e1 : 8 * 0 + (3 + j) = 3 + j := by omega
    have a1 : 3 + j < 8 := by omega
    have a2 : ¬ j ≥ 5 := by omega
    have a3 : ¬ j ≥ 11 := by omega
    simp [e1, a1, a2, a3, h5]
  · by_cases h11 : j < 11
    · have e2 : 8 * 1 + (2 + (j - 5)) = 5 + j := by omega
      have a1 : ¬ 3 + j < 8 := by omega
      have a2 : j ≥ 5 := by omega
      have a3 : ¬ j ≥ 11 := by omega
      have a4 : 2 + (j - 5) < 8 := by omega
      have a5 : j - 5 < 6 := by omega
      simp [e2, a1, a2, a3, a4, a5, h5]
    · by_cases h16 : j < 16
      · have e3 : 8 * 2 + (3 + (j - 11)) = 8 + j := by omega
        have a1 : ¬ 3 + j < 8 := by omega
        have a2 : j ≥ 5 := by omega
        have a3 : j ≥ 11 := by omega
        have a4 : ¬ 2 + (j - 5) < 8 := by omega
        have a5 : ¬ j - 5 < 6 := by omega
        have a6 : 3 + (j - 11) < 8 := by omega
        have a7 : j - 11 < 5 := by omega
        simp [e3, a1, a2, a3, a4, a5, a6, a7, h5]
      · have a1 : ¬ 3 + j < 8 := by omega
        have a4 : ¬ 2 + (j - 5) < 8 := by omega
        have a5 : ¬ j - 5 < 6 := by omega
        have a6 : ¬ 3 + (j - 11) < 8 := by omega
        have a7 : ¬ j - 11 < 5 := by omega
        simp [a1, a4, a5, a6, a7, h5]

theorem RGBA8888toRGB565_eq_pack565 (px : Nat) : RGBA8888toRGB565 px = pack565 px := by
  apply Nat.eq_of_testBit_eq
  intro j
  rw [RGBA8888toRGB565_testBit, pack565_testBit]

theorem RGBA8888toRGB565_low24 (px : Nat) :
    RGBA8888toRGB565 (px % 2 ^ 24) = RGBA8888toRGB565 px := by
  apply Nat.eq_of_testBit_eq
  intro j
  rw [RGBA8888toRGB565_testBit, RGBA8888toRGB565_testBit, Nat.testBit_mod_two_pow,
    Nat.testBit_mod_two_pow, Nat.testBit_mod_two_pow]
  by_cases h5 : j < 5
  · have a1 : 3 + j < 24 := by omega
    have a2 : ¬ j ≥ 5 := by omega
    have a3 : ¬ j ≥ 11 := by omega
    simp [a1, a2, a3, h5]
  · by_cases h11 : j - 5 < 6
    · have a1 : 5 + j < 24 := by omega
      have a3 : ¬ j ≥ 11 := by omega
      simp [a1, a3, h5, h11]
    · by_cases h16 : j - 11 < 5
      · have a1 : 8 + j < 24 := by omega
        simp [a1, h5, h11, h16]
      · simp [h5, h11, h16]

/-- The loop of `ConvertRGBA8888ToRGB565` after its first `n` passes. -/
theorem Convert_prefix (dst image : List Nat) (himg : dst.length ≤ image.length) :
    ∀ n, n ≤ dst.length →
      ∃ d, (List.range n).foldlM
          (fun d i => match image[i]? with
            | some px => some (d.set i (RGBA8888toRGB565 px))
            | none => none) dst = some d ∧
        d.length = dst.length ∧
        (∀ i, i < n → d[i]? = (image[i]?).map RGBA8888toRGB565) ∧
        (∀ i, n ≤ i → d[i]? = dst[i]?) := by
  intro n
  induction n with
  | zero =>
    intro _
    exact ⟨dst, rfl, rfl, fun i hi => absurd hi (Nat.not_lt_zero i), fun i _ => rfl⟩
  | succ n ih =>
    intro hn
    obtain ⟨d, hd, hlen, hlow, hhigh⟩ := ih (by omega)
    have hget : image[n]? = some image[n] := List.getElem?_eq_getElem (by omega)
    refine ⟨d.set n (RGBA8888toRGB565 image[n]), ?_, ?_, ?_, ?_⟩
    · rw [List.range_succ, List.foldlM_append, hd]
      simp [hget]
    · rw [List.length_set, hlen]
    · intro i hi
      by_cases hin : i = n
      · subst hin
        rw [hget]
        simp [List.getElem?_set, hlen]
        omega
      · rw [List.getElem?_set_ne (Ne.symm hin)]
        exact hlow i (by omega)
    · intro i hi
      rw [List.getElem?_set_ne (by omega)]
      exact hhigh i (by omega)

/-- C16: `RGBA8888toRGB565` keeps the top 5, 6 and 5 bits of bytes 0, 1 and 2 of
the pixel and ignores byte 3.  The result is
`(b0 >> 3) | ((b1 >> 2) << 5) | ((b2 >> 3) << 11)`; two pixels that agree on
bits 0-23 give the same result; and when `image` has at least `dst.size()`
pixels, `ConvertRGBA8888ToRGB565` returns with `dst[i]` set to this value of
`image[i]` for every `i` below `dst.size()`, the size of `dst` being kept. -/
theorem RGBA8888toRGB565_spec (dst image : List Nat) (himg : dst.length ≤ image.length) :
    (∀ px, RGBA8888toRGB565 px =
      ((byteLane px 0 >>> 3) ||| ((byteLane px 1 >>> 2) <<< 5) |||
        ((byteLane px 2 >>> 3) <<< 11))) ∧
    (∀ px1 px2, px1 % 2 ^ 24 = px2 % 2 ^ 24 → RGBA8888toRGB565 px1 = RGBA8888toRGB565 px2) ∧
    ∃ out, ConvertRGBA8888ToRGB565 dst image = some out ∧ out.length = dst.length ∧
      ∀ i, i < dst.length →
        ∃ px, image[i]? = some px ∧ out[i]? = some (RGBA8888toRGB565 px) := by
  refine ⟨RGBA8888toRGB565_eq_pack565, ?_, ?_⟩
  · intro px1 px2 h
    rw [← RGBA8888toRGB565_low24 px1, ← RGBA8888toRGB565_low24 px2, h]
  · obtain ⟨d, hd, hlen, hlow, _⟩ := Convert_prefix dst image himg dst.length (Nat.le_refl _)
    refine ⟨d, hd, hlen, ?_⟩
    intro i hi
    have hget : image[i]? = some image[i] := List.getElem?_eq_getElem (by omega)
    refine ⟨image[i], hget, ?_⟩
    rw [hlow i hi, hget]
    rfl

/-- Witness of C16: two pixels into a vector of two elements. -/
theorem RGBA8888toRGB565_spec_witness :
    (∀ px, RGBA8888toRGB565 px =
      ((byteLane px 0 >>> 3) ||| ((byteLane px 1 >>> 2) <<< 5) |||
        ((byteLane px 2 >>> 3) <<< 11))) ∧
    (∀ px1 px2, px1 % 2 ^ 24 = px2 % 2 ^ 24 → RGBA8888toRGB565 px1 = RGBA8888toRGB565 px2) ∧
    ∃ out, ConvertRGBA8888ToRGB565 [0, 0] [0xFFFFFFFF, 0xFF000000] = some out ∧
      out.length = [0, 0].length ∧
      ∀ i, i < [0, 0].length →
        ∃ px, [0xFFFFFFFF, 0xFF000000][i]? = some px ∧ out[i]? = some (RGBA8888toRGB565 px) :=
  RGBA8888toRGB565_spec [0, 0] [0xFFFFFFFF, 0xFF000000] (by decide)

/-- C17: the range of the table-driven transform.  For `r`, `g`, `b` in 0..255
the three lookups succeed with `Y` in -1..252, `U` in 1..255 and `V` in 1..256.
Clamping to 0..255 therefore leaves a `U` value and the truncated mean of two `U`
values as they are, while `Y` and `V` leave 0..255 by at most 1; they do so at
`Y(0, 0, 0) = -1` and `V(255, 0, 0) = 256`. -/
theorem YuvTable_ranges (r g b r2 g2 b2 : Nat) (hr : r < 256) (hg : g < 256) (hb : b < 256)
    (hr2 : r2 < 256) (hg2 : g2 < 256) (hb2 : b2 < 256) :
    ∃ y u v u2, YuvTable.Y r g b = some y ∧ YuvTable.U r g b = some u ∧
      YuvTable.V r g b = some v ∧ YuvTable.U r2 g2 b2 = some u2 ∧
      (-1 ≤ y ∧ y ≤ 252) ∧ (1 ≤ u ∧ u ≤ 255) ∧ (1 ≤ v ∧ v ≤ 256) ∧
      clamp u 0 0xFF = u ∧ clamp ((u + u2).tdiv 2) 0 0xFF = (u + u2).tdiv 2 ∧
      (clamp y 0 0xFF = y ∨ (y = -1 ∧ clamp y 0 0xFF = 0)) ∧
      (clamp v 0 0xFF = v ∨ (v = 256 ∧ clamp v 0 0xFF = 255)) ∧
      YuvTable.Y 0 0 0 = some (-1) ∧ YuvTable.V 255 0 0 = some 256 := by
  obtain ⟨y, hy, hy1, hy2⟩ := Y_get hr hg hb
  obtain ⟨u, hu, hu1, hu2⟩ := U_get hr hg hb
  obtain ⟨v, hv, hv1, hv2⟩ := V_get hr hg hb
  obtain ⟨u2, hu', hu3, hu4⟩ := U_get hr2 hg2 hb2
  have hmean : 1 ≤ (u + u2).tdiv 2 ∧ (u + u2).tdiv 2 ≤ 255 :=
    tdiv_two_bounds (by omega) (by omega) (by omega)
  refine ⟨y, u, v, u2, hy, hu, hv, hu', ⟨hy1, hy2⟩, ⟨hu1, hu2⟩, ⟨hv1, hv2⟩,
    clamp_id (by omega) (by omega), clamp_id (by omega) (by omega), ?_, ?_, by decide, by decide⟩
  · by_cases h : 0 ≤ y
    · exact Or.inl (clamp_id h (by omega))
    · refine Or.inr ⟨by omega, ?_⟩
      unfold clamp
      rw [if_pos (by omega)]
  · by_cases h : v ≤ 255
    · exact Or.inl (clamp_id (by omega) h)
    · refine Or.inr ⟨by omega, ?_⟩
      unfold clamp
      rw [if_neg (by omega), if_pos (by omega)]

/-- Witness of C17: the pixels `(255, 0, 0)` and `(0, 255, 255)`. -/
theorem YuvTable_ranges_witness :
    ∃ y u v u2, YuvTable.Y 255 0 0 = some y ∧ YuvTable.U 255 0 0 = some u ∧
      YuvTable.V 255 0 0 = some v ∧ YuvTable.U 0 255 255 = some u2 ∧
      (-1 ≤ y ∧ y ≤ 252) ∧ (1 ≤ u ∧ u ≤ 255) ∧ (1 ≤ v ∧ v ≤ 256) ∧
      clamp u 0 0xFF = u ∧ clamp ((u + u2).tdiv 2) 0 0xFF = (u + u2).tdiv 2 ∧
      (clamp y 0 0xFF = y ∨ (y = -1 ∧ clamp y 0 0xFF = 0)) ∧
      (clamp v 0 0xFF = v ∨ (v = 256 ∧ clamp v 0 0xFF = 255)) ∧
      YuvTable.Y 0 0 0 = some (-1) ∧ YuvTable.V 255 0 0 = some 256 :=
  YuvTable_ranges 255 0 0 0 255 255 (by decide) (by decide) (by decide) (by decide) (by decide)
    (by decide)

end CameraUtil
